import Mathlib

/-!
# Verification of `dynamodb-session-web` (`src/dynamodb_session_web/_session.py`)

A shallow embedding of the session-lifecycle library and proofs about it.

Modelling conventions:
* Machine strings holding serialized JSON are Lean `String`s; the JSON
  encoder/decoder used by `SessionDictInstance` (Python's `json.dumps` /
  `json.loads`) is embedded as an executable renderer and recursive-descent
  parser over `Char` lists.  JSON numbers are modelled as integers (the
  payloads the library round-trips exactly).
* `datetime` instants are modelled at one-second resolution by a wall-clock
  epoch value plus an optional fixed UTC offset (`none` = naive datetime),
  which is exactly the information `datetime.fromisoformat` recovers from an
  ISO-8601 string.  An ISO string is identified with the instant it parses
  to, since `isoformat`/`fromisoformat` are mutually inverse on such values.
* `datetime.now(tz=timezone.utc)` is modelled by an explicit clock: a stream
  of epoch values indexed by a call counter, threaded through every
  operation in the order the Python code performs the calls.
* The DynamoDB table is a key → attribute-map list; `update_item` with a
  `SET` expression is an upsert that assigns exactly the listed attributes.
* External primitives with no source in the repository are modelled from
  their documented behaviour and marked as such in their doc comments
  (`itsdangerous.Signer`, `hashlib.sha512`, `secrets.token_urlsafe`).
-/

set_option maxHeartbeats 1600000
set_option linter.unusedVariables false
set_option linter.unnecessarySeqFocus false

namespace DynamoSession

/-! ## JSON values

Model of the values Python's `json` module moves between text and a `dict`
payload: `null`, booleans, (integer) numbers, strings, arrays and objects.
Mutual inductives are used so that structural recursion over nested arrays
and objects stays primitive. -/

mutual

inductive JsonVal : Type where
  | null : JsonVal
  | bool (b : Bool) : JsonVal
  | num (n : Int) : JsonVal
  | str (s : String) : JsonVal
  | arr (elems : JsonArr) : JsonVal
  | obj (members : JsonObj) : JsonVal
deriving DecidableEq

inductive JsonArr : Type where
  | nil : JsonArr
  | cons (v : JsonVal) (tl : JsonArr) : JsonArr
deriving DecidableEq

inductive JsonObj : Type where
  | nil : JsonObj
  | cons (k : String) (v : JsonVal) (tl : JsonObj) : JsonObj
deriving DecidableEq

end

/-- Object members as an association list (Python `dict` iteration order). -/
def JsonObj.toList : JsonObj → List (String × JsonVal)
  | .nil => []
  | .cons k v tl => (k, v) :: tl.toList

/-- Build object members from an association list. -/
def JsonObj.ofList : List (String × JsonVal) → JsonObj
  | [] => .nil
  | (k, v) :: tl => .cons k v (JsonObj.ofList tl)

theorem JsonObj.toList_ofList (l : List (String × JsonVal)) :
    (JsonObj.ofList l).toList = l := by
  induction l with
  | nil => rfl
  | cons hd tl ih => cases hd; simp [JsonObj.ofList, JsonObj.toList, ih]

/-! ## Decimal digit strings

Executable rendering/parsing of decimal numerals, used by the JSON encoder
(`json.dumps` of an `int`) and decoder. -/

/-- Big-endian decimal digit characters of a natural number, with explicit
fuel so that the recursion is structural. -/
def natToDigitsAux : Nat → Nat → List Char
  | 0, _ => []
  | fuel + 1, n =>
    if n < 10 then [Nat.digitChar n]
    else natToDigitsAux fuel (n / 10) ++ [Nat.digitChar (n % 10)]

/-- Big-endian decimal digit characters of a natural number. -/
def natToDigits (n : Nat) : List Char :=
  natToDigitsAux (n + 1) n

/-- Numeric value of a big-endian list of decimal digit characters. -/
def digitsVal (ds : List Char) : Nat :=
  ds.foldl (fun a c => a * 10 + (c.toNat - 48)) 0

theorem digitChar_isDigit {d : Nat} (h : d < 10) : (Nat.digitChar d).isDigit = true := by
  interval_cases d <;> decide

theorem digitChar_toNat {d : Nat} (h : d < 10) : (Nat.digitChar d).toNat - 48 = d := by
  interval_cases d <;> decide

theorem natToDigitsAux_ne_nil (fuel n : Nat) (h : n < fuel) :
    natToDigitsAux fuel n ≠ [] := by
  cases fuel with
  | zero => omega
  | succ f =>
    rw [natToDigitsAux]
    split <;> simp

theorem natToDigits_ne_nil (n : Nat) : natToDigits n ≠ [] :=
  natToDigitsAux_ne_nil (n + 1) n (by omega)

theorem natToDigitsAux_isDigit (n : Nat) : ∀ (fuel : Nat), n < fuel →
    ∀ c ∈ natToDigitsAux fuel n, c.isDigit = true := by
  induction n using Nat.strong_induction_on with
  | _ n ih =>
    intro fuel hf
    cases fuel with
    | zero => omega
    | succ f =>
      rw [natToDigitsAux]
      split
      next h => simpa using digitChar_isDigit h
      next h =>
        intro c hc
        rw [List.mem_append] at hc
        rcases hc with hc | hc
        · have hdiv : n / 10 < n := Nat.div_lt_self (by omega) (by omega)
          exact ih (n / 10) hdiv f (by omega) c hc
        · simp only [List.mem_singleton] at hc
          subst hc
          exact digitChar_isDigit (Nat.mod_lt _ (by omega))

theorem natToDigits_isDigit (n : Nat) : ∀ c ∈ natToDigits n, c.isDigit = true :=
  natToDigitsAux_isDigit n (n + 1) (by omega)

theorem digitsVal_append_single (ds : List Char) (c : Char) :
    digitsVal (ds ++ [c]) = digitsVal ds * 10 + (c.toNat - 48) := by
  simp [digitsVal, List.foldl_append]

theorem digitsVal_natToDigitsAux (n : Nat) : ∀ (fuel : Nat), n < fuel →
    digitsVal (natToDigitsAux fuel n) = n := by
  induction n using Nat.strong_induction_on with
  | _ n ih =>
    intro fuel hf
    cases fuel with
    | zero => omega
    | succ f =>
      rw [natToDigitsAux]
      split
      next h => simp [digitsVal, digitChar_toNat h]
      next h =>
        have hdiv : n / 10 < n := Nat.div_lt_self (by omega) (by omega)
        rw [digitsVal_append_single, ih (n / 10) hdiv f (by omega),
          digitChar_toNat (Nat.mod_lt _ (by omega))]
        omega

theorem digitsVal_natToDigits (n : Nat) : digitsVal (natToDigits n) = n :=
  digitsVal_natToDigitsAux n (n + 1) (by omega)

/-! ## JSON rendering (`json.dumps`)

Canonical text encoding of a `JsonVal`.  String escaping covers the quote
and backslash characters (the payloads the library round-trips); numerals
are rendered in decimal. -/

/-- Escape one character inside a JSON string literal. -/
def escapeChar (c : Char) : List Char :=
  if c = '"' ∨ c = '\\' then ['\\', c] else [c]

/-- Escape every character of a JSON string body. -/
def escapeChars : List Char → List Char
  | [] => []
  | c :: tl => escapeChar c ++ escapeChars tl

/-- Rendered JSON string literal, quotes included. -/
def renderString (s : String) : List Char :=
  '"' :: (escapeChars s.data ++ ['"'])

/-- Rendered decimal integer literal. -/
def renderInt (n : Int) : List Char :=
  if n < 0 then '-' :: natToDigits n.natAbs else natToDigits n.toNat

mutual

/-- Render a JSON value to characters. -/
def renderVal : JsonVal → List Char
  | .str s => renderString s
  | .num n => renderInt n
  | .arr l => '[' :: (renderItems l ++ [']'])
  | .obj m => '{' :: (renderMembers m ++ ['}'])
  | .bool false => ['f', 'a', 'l', 's', 'e']
  | .null => ['n', 'u', 'l', 'l']
  | .bool true => ['t', 'r', 'u', 'e']

/-- Render array elements, comma separated. -/
def renderItems : JsonArr → List Char
  | .nil => []
  | .cons v .nil => renderVal v
  | .cons v (.cons w tl) => renderVal v ++ ',' :: renderItems (.cons w tl)

/-- Render object members, comma separated. -/
def renderMembers : JsonObj → List Char
  | .nil => []
  | .cons k v .nil => renderString k ++ ':' :: renderVal v
  | .cons k v (.cons k2 w tl) =>
    renderString k ++ ':' :: renderVal v ++ ',' :: renderMembers (.cons k2 w tl)

end

/-! ## JSON parsing (`json.loads`) -/

/-- Parse the body of a JSON string literal after the opening quote,
returning the unescaped characters and the input after the closing
quote. -/
def parseStrBody : List Char → Option (List Char × List Char)
  | [] => none
  | c :: tl =>
    if c = '\\' then
      match tl with
      | [] => none
      | c2 :: tl2 => (parseStrBody tl2).map (fun p => (c2 :: p.1, p.2))
    else if c = '"' then some ([], tl)
    else (parseStrBody tl).map (fun p => (c :: p.1, p.2))

/-- Split off the maximal leading run of decimal digits. -/
def spanDigits : List Char → List Char × List Char
  | [] => ([], [])
  | c :: tl =>
    if c.isDigit then
      let p := spanDigits tl
      (c :: p.1, p.2)
    else ([], c :: tl)

mutual

/-- Fuel-indexed recursive-descent parser for one JSON value. -/
def parseVal : Nat → List Char → Option (JsonVal × List Char)
  | 0, _ => none
  | _ + 1, [] => none
  | fuel + 1, c :: tl =>
    if c = 'n' then
      match tl with
      | 'u' :: 'l' :: 'l' :: rest => some (.null, rest)
      | _ => none
    else if c = 't' then
      match tl with
      | 'r' :: 'u' :: 'e' :: rest => some (.bool true, rest)
      | _ => none
    else if c = 'f' then
      match tl with
      | 'a' :: 'l' :: 's' :: 'e' :: rest => some (.bool false, rest)
      | _ => none
    else if c = '"' then
      (parseStrBody tl).map (fun p => (.str (String.mk p.1), p.2))
    else if c = '[' then
      (parseItems fuel tl).map (fun p => (.arr p.1, p.2))
    else if c = '{' then
      (parseMembers fuel tl).map (fun p => (.obj p.1, p.2))
    else if c = '-' then
      match spanDigits tl with
      | ([], _) => none
      | (d :: ds, r) => some (.num (-(digitsVal (d :: ds) : Int)), r)
    else if c.isDigit then
      some (.num ((digitsVal (spanDigits (c :: tl)).1 : Int)), (spanDigits (c :: tl)).2)
    else none

/-- Parse array elements up to and including the closing bracket. -/
def parseItems : Nat → List Char → Option (JsonArr × List Char)
  | 0, _ => none
  | _ + 1, [] => none
  | fuel + 1, c :: tl =>
    if c = ']' then some (.nil, tl)
    else
      match parseVal fuel (c :: tl) with
      | none => none
      | some (v, r) =>
        match r with
        | ',' :: r2 => (parseItems fuel r2).map (fun p => (.cons v p.1, p.2))
        | ']' :: r2 => some (.cons v .nil, r2)
        | _ => none

/-- Parse object members up to and including the closing brace. -/
def parseMembers : Nat → List Char → Option (JsonObj × List Char)
  | 0, _ => none
  | _ + 1, [] => none
  | fuel + 1, c :: tl =>
    if c = '}' then some (.nil, tl)
    else if c = '"' then
      match parseStrBody tl with
      | none => none
      | some (kcs, r) =>
        match r with
        | ':' :: r2 =>
          match parseVal fuel r2 with
          | none => none
          | some (v, r3) =>
            match r3 with
            | ',' :: r4 =>
              (parseMembers fuel r4).map (fun p => (.cons (String.mk kcs) v p.1, p.2))
            | '}' :: r4 => some (.cons (String.mk kcs) v .nil, r4)
            | _ => none
        | _ => none
    else none

end

/-! ### Parser/renderer inversion -/

/-- The input does not begin with a decimal digit (so a numeral parse that
stops here is maximal). -/
def notDigitStart : List Char → Prop
  | [] => True
  | c :: _ => c.isDigit = false

theorem isDigit_ne {c : Char} (h : c.isDigit = true) :
    c ≠ 'n' ∧ c ≠ 't' ∧ c ≠ 'f' ∧ c ≠ '"' ∧ c ≠ '[' ∧ c ≠ '{' ∧ c ≠ '-' ∧
      c ≠ ']' ∧ c ≠ '}' := by
  refine ⟨?_, ?_, ?_, ?_, ?_, ?_, ?_, ?_, ?_⟩ <;>
    · intro he
      rw [he] at h
      exact absurd h (by decide)

theorem parseStrBody_escape (l : List Char) : ∀ rest : List Char,
    parseStrBody (escapeChars l ++ '"' :: rest) = some (l, rest) := by
  induction l with
  | nil =>
    intro rest
    simp only [escapeChars, List.nil_append]
    rw [parseStrBody.eq_def]
    simp
  | cons c tl ih =>
    intro rest
    by_cases hc : c = '"' ∨ c = '\\'
    · simp only [escapeChars, escapeChar, if_pos hc, List.cons_append, List.append_assoc]
      rw [parseStrBody.eq_def]
      simp [ih]
    · push_neg at hc
      simp only [escapeChars, escapeChar, if_neg (by tauto : ¬(c = '"' ∨ c = '\\')),
        List.cons_append, List.nil_append]
      rw [parseStrBody.eq_def]
      simp [hc.1, hc.2, ih]

theorem spanDigits_append : ∀ ds : List Char, (∀ c ∈ ds, c.isDigit = true) →
    ∀ rest : List Char, notDigitStart rest → spanDigits (ds ++ rest) = (ds, rest) := by
  intro ds
  induction ds with
  | nil =>
    intro _ rest hrest
    simp only [List.nil_append]
    cases rest with
    | nil => rfl
    | cons c tl =>
      have hc : c.isDigit = false := hrest
      rw [spanDigits]
      simp [hc]
  | cons c tl ih =>
    intro hds rest hrest
    have hc : c.isDigit = true := hds c (by simp)
    have ih' := ih (fun d hd => hds d (by simp [hd])) rest hrest
    simp only [List.cons_append]
    rw [spanDigits]
    simp [hc, ih']

mutual

/-- Fuel consumed by `parseVal` on the rendering of a value. -/
def fuelVal : JsonVal → Nat
  | .arr l => 1 + fuelItems l
  | .obj m => 1 + fuelMembers m
  | _ => 1

def fuelItems : JsonArr → Nat
  | .nil => 1
  | .cons v .nil => 1 + fuelVal v
  | .cons v (.cons w tl) => 1 + fuelVal v + fuelItems (.cons w tl)

def fuelMembers : JsonObj → Nat
  | .nil => 1
  | .cons _ v .nil => 1 + fuelVal v
  | .cons _ v (.cons k2 w tl) => 1 + fuelVal v + fuelMembers (.cons k2 w tl)

end

theorem one_le_fuelVal (v : JsonVal) : 1 ≤ fuelVal v := by
  cases v <;> simp [fuelVal]

/-- The first character of a rendered value is never a closing bracket or
closing brace. -/
theorem renderVal_cons (v : JsonVal) :
    ∃ c cs, renderVal v = c :: cs ∧ c ≠ ']' ∧ c ≠ '}' := by
  cases v with
  | null => exact ⟨'n', ['u', 'l', 'l'], rfl, by decide, by decide⟩
  | bool b =>
    cases b with
    | false => exact ⟨'f', ['a', 'l', 's', 'e'], rfl, by decide, by decide⟩
    | true => exact ⟨'t', ['r', 'u', 'e'], rfl, by decide, by decide⟩
  | num n =>
    by_cases hn : n < 0
    · exact ⟨'-', natToDigits n.natAbs, by simp [renderVal, renderInt, hn], by decide, by decide⟩
    · obtain ⟨c, cs, hcs⟩ := List.exists_cons_of_ne_nil (natToDigits_ne_nil n.toNat)
      have hd : c.isDigit = true := natToDigits_isDigit n.toNat c (by rw [hcs]; simp)
      exact ⟨c, cs, by simp [renderVal, renderInt, hn, hcs],
        (isDigit_ne hd).2.2.2.2.2.2.2.1, (isDigit_ne hd).2.2.2.2.2.2.2.2⟩
  | str s => exact ⟨'"', escapeChars s.data ++ ['"'], rfl, by decide, by decide⟩
  | arr l => exact ⟨'[', renderItems l ++ [']'], rfl, by decide, by decide⟩
  | obj m => exact ⟨'{', renderMembers m ++ ['}'], rfl, by decide, by decide⟩

mutual

theorem parse_render_val (v : JsonVal) :
    ∀ (fuel : Nat) (rest : List Char), fuelVal v ≤ fuel → notDigitStart rest →
      parseVal fuel (renderVal v ++ rest) = some (v, rest) := by
  intro fuel rest hfuel hrest
  obtain ⟨f, rfl⟩ : ∃ f, fuel = f + 1 :=
    ⟨fuel - 1, by have := one_le_fuelVal v; omega⟩
  cases v with
  | null =>
    simp only [renderVal, List.cons_append, List.nil_append]
    rw [parseVal.eq_def]
    simp
  | bool b =>
    cases b with
    | false =>
      simp only [renderVal, List.cons_append, List.nil_append]
      rw [parseVal.eq_def]
      simp
    | true =>
      simp only [renderVal, List.cons_append, List.nil_append]
      rw [parseVal.eq_def]
      simp
  | num n =>
    by_cases hn : n < 0
    · obtain ⟨d, ds, hds⟩ := List.exists_cons_of_ne_nil (natToDigits_ne_nil n.natAbs)
      have hval : digitsVal (d :: ds) = n.natAbs := by rw [← hds, digitsVal_natToDigits]
      have hspan : spanDigits (natToDigits n.natAbs ++ rest) = (natToDigits n.natAbs, rest) :=
        spanDigits_append _ (natToDigits_isDigit _) rest hrest
      rw [hds] at hspan
      have habs : -((n.natAbs : Nat) : Int) = n := by omega
      simp only [renderVal, renderInt, if_pos hn, hds, List.cons_append]
      rw [parseVal.eq_def]
      simp only [List.cons_append] at hspan
      simp [hspan, hval, habs]
      rw [abs_of_neg hn]
      omega
    · obtain ⟨d, ds, hds⟩ := List.exists_cons_of_ne_nil (natToDigits_ne_nil n.toNat)
      have hd : d.isDigit = true := natToDigits_isDigit n.toNat d (by rw [hds]; simp)
      obtain ⟨h1, h2, h3, h4, h5, h6, h7, _, _⟩ := isDigit_ne hd
      have hval : digitsVal (d :: ds) = n.toNat := by rw [← hds, digitsVal_natToDigits]
      have hspan : spanDigits (natToDigits n.toNat ++ rest) = (natToDigits n.toNat, rest) :=
        spanDigits_append _ (natToDigits_isDigit _) rest hrest
      rw [hds] at hspan
      have htn : ((n.toNat : Nat) : Int) = n := Int.toNat_of_nonneg (by omega)
      simp only [renderVal, renderInt, if_neg hn, hds, List.cons_append]
      rw [parseVal.eq_def]
      simp only [List.cons_append] at hspan
      simp [h1, h2, h3, h4, h5, h6, h7, hd, hspan, hval, htn]
  | str s =>
    have h := parseStrBody_escape s.data rest
    simp only [renderVal, renderString, List.cons_append, List.append_assoc,
      List.cons_append, List.nil_append]
    rw [parseVal.eq_def]
    simp [h]
  | arr l =>
    have hf : fuelItems l ≤ f := by
      have : fuelVal (.arr l) = 1 + fuelItems l := rfl
      omega
    have h := parse_render_items l f rest hf hrest
    simp only [renderVal, List.cons_append, List.append_assoc, List.cons_append,
      List.nil_append]
    rw [parseVal.eq_def]
    simp only [List.append_assoc, List.cons_append, List.nil_append] at h
    simp [h]
  | obj m =>
    have hf : fuelMembers m ≤ f := by
      have : fuelVal (.obj m) = 1 + fuelMembers m := rfl
      omega
    have h := parse_render_members m f rest hf hrest
    simp only [renderVal, List.cons_append, List.append_assoc, List.cons_append,
      List.nil_append]
    rw [parseVal.eq_def]
    simp only [List.append_assoc, List.cons_append, List.nil_append] at h
    simp [h]

theorem parse_render_items (l : JsonArr) :
    ∀ (fuel : Nat) (rest : List Char), fuelItems l ≤ fuel → notDigitStart rest →
      parseItems fuel (renderItems l ++ ']' :: rest) = some (l, rest) := by
  intro fuel rest hfuel hrest
  obtain ⟨f, rfl⟩ : ∃ f, fuel = f + 1 :=
    ⟨fuel - 1, by
      have : 1 ≤ fuelItems l := by
        cases l with
        | nil => simp [fuelItems]
        | cons v tl => cases tl <;> simp [fuelItems] <;> omega
      omega⟩
  cases l with
  | nil =>
    simp only [renderItems, List.nil_append]
    rw [parseItems.eq_def]
    simp
  | cons v tl =>
    cases tl with
    | nil =>
      have hfv : fuelVal v ≤ f := by
        have : fuelItems (.cons v .nil) = 1 + fuelVal v := rfl
        omega
      obtain ⟨c, cs, hv, hc1, _⟩ := renderVal_cons v
      have hval := parse_render_val v f (']' :: rest) hfv (by exact rfl)
      rw [hv] at hval
      simp only [renderItems, hv, List.cons_append]
      rw [parseItems.eq_def]
      simp only [List.cons_append] at hval
      simp [hc1, hval]
    | cons w tl2 =>
      have hfv : fuelVal v ≤ f := by
        have : fuelItems (.cons v (.cons w tl2)) =
          1 + fuelVal v + fuelItems (.cons w tl2) := rfl
        omega
      have hfi : fuelItems (.cons w tl2) ≤ f := by
        have : fuelItems (.cons v (.cons w tl2)) =
          1 + fuelVal v + fuelItems (.cons w tl2) := rfl
        omega
      obtain ⟨c, cs, hv, hc1, _⟩ := renderVal_cons v
      have hval := parse_render_val v f
        (',' :: (renderItems (.cons w tl2) ++ ']' :: rest)) hfv (by exact rfl)
      have htl := parse_render_items (.cons w tl2) f rest hfi hrest
      rw [hv] at hval
      simp only [renderItems, hv, List.cons_append, List.append_assoc]
      rw [parseItems.eq_def]
      simp only [List.cons_append, List.append_assoc] at hval htl
      simp [hc1, hval, htl]

theorem parse_render_members (m : JsonObj) :
    ∀ (fuel : Nat) (rest : List Char), fuelMembers m ≤ fuel → notDigitStart rest →
      parseMembers fuel (renderMembers m ++ '}' :: rest) = some (m, rest) := by
  intro fuel rest hfuel hrest
  obtain ⟨f, rfl⟩ : ∃ f, fuel = f + 1 :=
    ⟨fuel - 1, by
      have : 1 ≤ fuelMembers m := by
        cases m with
        | nil => simp [fuelMembers]
        | cons k v tl => cases tl <;> simp [fuelMembers] <;> omega
      omega⟩
  cases m with
  | nil =>
    simp only [renderMembers, List.nil_append]
    rw [parseMembers.eq_def]
    simp
  | cons k v tl =>
    cases tl with
    | nil =>
      have hfv : fuelVal v ≤ f := by
        have : fuelMembers (.cons k v .nil) = 1 + fuelVal v := rfl
        omega
      have hkey := parseStrBody_escape k.data ((':' : Char) :: (renderVal v ++ '}' :: rest))
      have hval := parse_render_val v f ('}' :: rest) hfv (by exact rfl)
      simp only [renderMembers, renderString, List.cons_append, List.append_assoc,
        List.nil_append]
      rw [parseMembers.eq_def]
      simp only [List.cons_append, List.append_assoc, List.nil_append] at hkey hval
      simp [hkey, hval]
    | cons k2 w tl2 =>
      have hfv : fuelVal v ≤ f := by
        have : fuelMembers (.cons k v (.cons k2 w tl2)) =
          1 + fuelVal v + fuelMembers (.cons k2 w tl2) := rfl
        omega
      have hfm : fuelMembers (.cons k2 w tl2) ≤ f := by
        have : fuelMembers (.cons k v (.cons k2 w tl2)) =
          1 + fuelVal v + fuelMembers (.cons k2 w tl2) := rfl
        omega
      have hkey := parseStrBody_escape k.data
        ((':' : Char) :: (renderVal v ++ ',' :: (renderMembers (.cons k2 w tl2) ++ '}' :: rest)))
      have hval := parse_render_val v f
        (',' :: (renderMembers (.cons k2 w tl2) ++ '}' :: rest)) hfv (by exact rfl)
      have htl := parse_render_members (.cons k2 w tl2) f rest hfm hrest
      simp only [renderMembers, renderString, List.cons_append, List.append_assoc,
        List.nil_append]
      rw [parseMembers.eq_def]
      simp only [List.cons_append, List.append_assoc, List.nil_append] at hkey hval htl
      simp [hkey, hval, htl]

end
mutual

/-- The fuel needed to parse a rendered value is bounded by its length. -/
theorem fuelVal_le (v : JsonVal) : fuelVal v ≤ (renderVal v).length := by
  cases v with
  | null => simp [fuelVal, renderVal]
  | bool b => cases b <;> simp [fuelVal, renderVal]
  | num n =>
    have h : renderInt n ≠ [] := by
      unfold renderInt
      split
      · simp
      · exact natToDigits_ne_nil _
    have := List.length_pos.mpr h
    simp only [fuelVal, renderVal]
    omega
  | str s =>
    simp only [fuelVal, renderVal, renderString, List.length_cons, List.length_append]
    omega
  | arr l =>
    have h := fuelItems_le l
    simp only [fuelVal, renderVal, List.length_cons, List.length_append,
      List.length_singleton]
    omega
  | obj m =>
    have h := fuelMembers_le m
    simp only [fuelVal, renderVal, List.length_cons, List.length_append,
      List.length_singleton]
    omega

theorem fuelItems_le (l : JsonArr) : fuelItems l ≤ (renderItems l).length + 1 := by
  cases l with
  | nil => simp [fuelItems, renderItems]
  | cons v tl =>
    cases tl with
    | nil =>
      have h := fuelVal_le v
      have he : fuelItems (.cons v .nil) = 1 + fuelVal v := rfl
      have hr : (renderItems (.cons v .nil)).length = (renderVal v).length := rfl
      omega
    | cons w tl2 =>
      have h := fuelVal_le v
      have h2 := fuelItems_le (.cons w tl2)
      have he : fuelItems (.cons v (.cons w tl2)) =
        1 + fuelVal v + fuelItems (.cons w tl2) := rfl
      have hr : (renderItems (.cons v (.cons w tl2))).length =
          (renderVal v).length + 1 + (renderItems (.cons w tl2)).length := by
        simp [renderItems]
        omega
      omega

theorem fuelMembers_le (m : JsonObj) : fuelMembers m ≤ (renderMembers m).length + 1 := by
  cases m with
  | nil => simp [fuelMembers, renderMembers]
  | cons k v tl =>
    cases tl with
    | nil =>
      have h := fuelVal_le v
      have he : fuelMembers (.cons k v .nil) = 1 + fuelVal v := rfl
      have hr : (renderMembers (.cons k v .nil)).length =
          (renderString k).length + 1 + (renderVal v).length := by
        simp [renderMembers]
        omega
      have hs : 2 ≤ (renderString k).length := by
        simp only [renderString, List.length_cons, List.length_append]
        omega
      omega
    | cons k2 w tl2 =>
      have h := fuelVal_le v
      have h2 := fuelMembers_le (.cons k2 w tl2)
      have he : fuelMembers (.cons k v (.cons k2 w tl2)) =
        1 + fuelVal v + fuelMembers (.cons k2 w tl2) := rfl
      have hr : (renderMembers (.cons k v (.cons k2 w tl2))).length =
          (renderString k).length + 1 + (renderVal v).length + 1 +
            (renderMembers (.cons k2 w tl2)).length := by
        simp [renderMembers]
        omega
      have hs : 2 ≤ (renderString k).length := by
        simp only [renderString, List.length_cons, List.length_append]
        omega
      omega

end

/-- `json.dumps`: serialize a JSON value to a string. -/
def dumps (v : JsonVal) : String :=
  String.mk (renderVal v)

/-- `json.loads`: parse a string as a single JSON value (no trailing input). -/
def loads (s : String) : Option JsonVal :=
  match parseVal (s.data.length + 1) s.data with
  | some (v, []) => some v
  | _ => none

/-- Decoding inverts encoding: `json.loads (json.dumps v) = v`. -/
theorem loads_dumps (v : JsonVal) : loads (dumps v) = some v := by
  have h := parse_render_val v ((renderVal v).length + 1) []
    (by have := fuelVal_le v; omega) trivial
  rw [List.append_nil] at h
  simp [loads, dumps, h]

/-! ## String-keyed mappings in insertion order

Both a Python `dict` (the payload of `SessionDictInstance`) and a DynamoDB
item (attribute name → attribute value) are mappings that preserve
insertion order: assigning to an existing key overwrites the value in
place, assigning to a fresh key appends.  They are modelled uniformly as
association lists. -/

section Assoc

variable {α : Type}

/-- `d[k] = v`: overwrite the value at the (unique) occurrence of `k` in
place, else append the new entry. -/
def assocSet : List (String × α) → String → α → List (String × α)
  | [], k, v => [(k, v)]
  | p :: tl, k, v => if p.1 = k then (k, v) :: tl else p :: assocSet tl k v

/-- Item assignment for each entry of `other`, in order (`dict.update`, or
a DynamoDB `SET` assignment list). -/
def assocUpdate (d other : List (String × α)) : List (String × α) :=
  other.foldl (fun acc p => assocSet acc p.1 p.2) d

/-- Lookup (`d.get(k)` / reading one attribute). -/
def assocGet (d : List (String × α)) (k : String) : Option α :=
  (d.find? (fun p => p.1 == k)).map (fun p => p.2)

theorem assocGet_cons (p : String × α) (tl : List (String × α)) (k : String) :
    assocGet (p :: tl) k = if p.1 = k then some p.2 else assocGet tl k := by
  by_cases h : p.1 = k
  · have hb : (p.1 == k) = true := by simp [h]
    simp [assocGet, List.find?, hb, h]
  · have hb : (p.1 == k) = false := by simp [h]
    simp [assocGet, List.find?, hb, h]

theorem assocGet_assocSet_self (d : List (String × α)) (k : String) (v : α) :
    assocGet (assocSet d k v) k = some v := by
  induction d with
  | nil => simp [assocSet, assocGet, List.find?]
  | cons p tl ih =>
    by_cases h : p.1 = k
    · simp [assocSet, h, assocGet_cons]
    · rw [assocSet, if_neg h, assocGet_cons, if_neg h]
      exact ih

theorem assocGet_assocSet_ne (d : List (String × α)) (k k' : String) (v : α)
    (h : k' ≠ k) : assocGet (assocSet d k v) k' = assocGet d k' := by
  have hkk : ¬(k = k') := fun hh => h hh.symm
  induction d with
  | nil =>
    show assocGet ((k, v) :: []) k' = assocGet [] k'
    rw [assocGet_cons, if_neg hkk]
  | cons p tl ih =>
    by_cases hpk : p.1 = k
    · have hpk' : ¬(p.1 = k') := fun hh => hkk (by rw [← hpk, hh])
      rw [assocSet, if_pos hpk, assocGet_cons, assocGet_cons, if_neg hkk, if_neg hpk']
    · rw [assocSet, if_neg hpk, assocGet_cons, assocGet_cons]
      by_cases hpk' : p.1 = k'
      · rw [if_pos hpk', if_pos hpk']
      · rw [if_neg hpk', if_neg hpk']
        exact ih

theorem assocSet_mem_self (d : List (String × α)) (k : String) (v : α) :
    (k, v) ∈ assocSet d k v := by
  induction d with
  | nil => simp [assocSet]
  | cons p tl ih =>
    by_cases h : p.1 = k
    · simp [assocSet, h]
    · rw [assocSet, if_neg h]
      exact List.mem_cons_of_mem p ih

theorem assocSet_mem_of_ne (d : List (String × α)) (k k2 : String) (v : α) (v2 : α)
    (hmem : (k, v) ∈ d) (hne : k ≠ k2) : (k, v) ∈ assocSet d k2 v2 := by
  induction d with
  | nil => simp at hmem
  | cons p tl ih =>
    rcases List.mem_cons.mp hmem with hp | htl
    · by_cases h : p.1 = k2
      · exact absurd ((congrArg Prod.fst hp).trans h) hne
      · rw [assocSet, if_neg h]
        exact List.mem_cons.mpr (Or.inl hp)
    · by_cases h : p.1 = k2
      · rw [assocSet, if_pos h]
        exact List.mem_cons_of_mem _ htl
      · rw [assocSet, if_neg h]
        exact List.mem_cons_of_mem _ (ih htl)

theorem assocUpdate_nil_other (d : List (String × α)) : assocUpdate d [] = d := rfl

theorem assocUpdate_cons_other (d : List (String × α)) (p : String × α)
    (tl : List (String × α)) :
    assocUpdate d (p :: tl) = assocUpdate (assocSet d p.1 p.2) tl := rfl

theorem assocGet_assocUpdate_not_key (d other : List (String × α)) (k : String)
    (h : k ∉ other.map Prod.fst) :
    assocGet (assocUpdate d other) k = assocGet d k := by
  induction other generalizing d with
  | nil => rfl
  | cons p tl ih =>
    simp only [List.map_cons, List.mem_cons, not_or] at h
    rw [assocUpdate_cons_other, ih _ h.2]
    exact assocGet_assocSet_ne _ _ _ _ h.1

theorem assocGet_assocUpdate_mem (d other : List (String × α)) (k : String) (v : α)
    (hnd : (other.map Prod.fst).Nodup) (hmem : (k, v) ∈ other) :
    assocGet (assocUpdate d other) k = some v := by
  induction other generalizing d with
  | nil => simp at hmem
  | cons p tl ih =>
    simp only [List.map_cons, List.nodup_cons] at hnd
    rcases List.mem_cons.mp hmem with hp | htl
    · have hk : p.1 = k := (congrArg Prod.fst hp).symm
      have hnk : k ∉ tl.map Prod.fst := hk ▸ hnd.1
      rw [assocUpdate_cons_other, assocGet_assocUpdate_not_key _ _ _ hnk, ← hp]
      exact assocGet_assocSet_self d k v
    · exact (assocUpdate_cons_other _ _ _) ▸ ih _ hnd.2 htl

theorem assocUpdate_mem_of_not_key (d other : List (String × α)) (k : String) (v : α)
    (hmem : (k, v) ∈ d) (h : k ∉ other.map Prod.fst) :
    (k, v) ∈ assocUpdate d other := by
  induction other generalizing d with
  | nil => exact hmem
  | cons p tl ih =>
    simp only [List.map_cons, List.mem_cons, not_or] at h
    rw [assocUpdate_cons_other]
    exact ih _ (assocSet_mem_of_ne _ _ _ _ _ hmem h.1) h.2

theorem assocUpdate_mem_of_mem (d other : List (String × α)) (k : String) (v : α)
    (hnd : (other.map Prod.fst).Nodup) (hmem : (k, v) ∈ other) :
    (k, v) ∈ assocUpdate d other := by
  induction other generalizing d with
  | nil => simp at hmem
  | cons p tl ih =>
    simp only [List.map_cons, List.nodup_cons] at hnd
    rw [assocUpdate_cons_other]
    rcases List.mem_cons.mp hmem with hp | htl
    · have hk : p.1 = k := (congrArg Prod.fst hp).symm
      exact assocUpdate_mem_of_not_key _ _ _ _
        (show (k, v) ∈ assocSet d p.1 p.2 by rw [← hp]; exact assocSet_mem_self d k v)
        (hk ▸ hnd.1)
    · exact ih _ hnd.2 htl

theorem assocSet_of_not_key (d : List (String × α)) (k : String) (v : α)
    (h : k ∉ d.map Prod.fst) : assocSet d k v = d ++ [(k, v)] := by
  induction d with
  | nil => rfl
  | cons p tl ih =>
    simp only [List.map_cons, List.mem_cons, not_or] at h
    rw [assocSet, if_neg (fun hh => h.1 hh.symm), List.cons_append, ih h.2]

theorem assocUpdate_of_disjoint (d other : List (String × α))
    (hnd : (other.map Prod.fst).Nodup)
    (hdisj : ∀ k ∈ other.map Prod.fst, k ∉ d.map Prod.fst) :
    assocUpdate d other = d ++ other := by
  induction other generalizing d with
  | nil => simp [assocUpdate_nil_other]
  | cons p tl ih =>
    simp only [List.map_cons, List.nodup_cons] at hnd
    rw [assocUpdate_cons_other,
      assocSet_of_not_key _ _ _ (hdisj p.1 (by simp)),
      ih _ hnd.2]
    · simp
    · intro k hk
      simp only [List.map_append, List.mem_append, List.map_cons]
      rintro (hd | hsing)
      · exact hdisj k (by simp [hk]) hd
      · simp only [List.map_nil, List.mem_singleton] at hsing
        exact hnd.1 (hsing ▸ hk)

/-- `dict.update` into an empty dict is the other mapping itself. -/
theorem assocUpdate_nil_of_nodup (other : List (String × α))
    (hnd : (other.map Prod.fst).Nodup) : assocUpdate [] other = other := by
  rw [assocUpdate_of_disjoint [] other hnd (by simp), List.nil_append]

end Assoc

/-! ## Error values

The exceptions the embedded code can raise (`exceptions.py` plus the
standard-library/dependency errors the module lets escape). -/

inductive PyErr : Type where
  /-- `ValueError`, as raised by `expiration_datetime` for non-UTC input. -/
  | valueError (msg : String) : PyErr
  /-- `json.JSONDecodeError` from `json.loads` on undecodable payload text. -/
  | jsonError : PyErr
  /-- `TypeError`/`ValueError` from `dict.update` on a non-mapping decode. -/
  | typeError : PyErr
  /-- `itsdangerous.BadSignature`. -/
  | badSignature : PyErr
  /-- `SessionNotFoundError` (carries only the loggable digest of the id). -/
  | sessionNotFound (loggableSid : String) : PyErr
  /-- `InvalidSessionIdError` (carries only the loggable digest of the id). -/
  | invalidSessionId (loggableSid : String) : PyErr
  /-- `KeyError` from reading a missing attribute of a fetched record. -/
  | keyError : PyErr
deriving DecidableEq

instance {e a : Type} [DecidableEq e] [DecidableEq a] : DecidableEq (Except e a) := fun
  | .error x, .error y =>
    if h : x = y then .isTrue (by rw [h])
    else .isFalse (fun hh => by injection hh with hx; exact h hx)
  | .error _, .ok _ => .isFalse (fun hh => Except.noConfusion hh)
  | .ok _, .error _ => .isFalse (fun hh => Except.noConfusion hh)
  | .ok x, .ok y =>
    if h : x = y then .isTrue (by rw [h])
    else .isFalse (fun hh => by injection hh with hx; exact h hx)

/-- `dict.update` of the payload entries (insertion-order semantics). -/
def dictUpdate (d other : List (String × JsonVal)) : List (String × JsonVal) :=
  assocUpdate d other

/-- `SessionDictInstance.serialize`: `json.dumps(self)` over the entries. -/
def dictSerialize (entries : List (String × JsonVal)) : String :=
  dumps (.obj (JsonObj.ofList entries))

/-- `SessionDictInstance.deserialize`: `self.update(json.loads(data))`. -/
def dictDeserialize (entries : List (String × JsonVal)) (data : String) :
    Except PyErr (List (String × JsonVal)) :=
  match loads data with
  | none => .error .jsonError
  | some (.obj m) => .ok (dictUpdate entries m.toList)
  | some _ => .error .typeError

/-! ## Datetimes

A `datetime` value is modelled at one-second resolution by its wall-clock
reading as an epoch value (`wallEpoch`) together with its fixed UTC offset
in seconds (`utcOffset`; `none` models a naive datetime).  This is the
information `datetime.fromisoformat` recovers from an ISO-8601 string, so
an ISO string is identified with the instant it parses to. -/

structure PyDatetime where
  wallEpoch : Int
  utcOffset : Option Int
deriving DecidableEq

/-- Two-digit (zero-padded) decimal rendering, as in `UTC+05:30`. -/
def twoDigits (n : Nat) : List Char :=
  if n < 10 then '0' :: natToDigits n else natToDigits n

/-- `datetime.timezone`'s name for a fixed offset of `o` seconds:
`"UTC"` exactly when the offset is zero, otherwise `"UTC±HH:MM"`. -/
def utcOffsetName (o : Int) : String :=
  if o = 0 then "UTC"
  else
    String.mk ('U' :: 'T' :: 'C' :: (if o < 0 then '-' else '+') ::
      (twoDigits (o.natAbs / 3600) ++ ':' :: twoDigits (o.natAbs % 3600 / 60)))

/-- `datetime.tzname()`: `none` for a naive value, else the offset name. -/
def PyDatetime.tzname (d : PyDatetime) : Option String :=
  d.utcOffset.map utcOffsetName

/-- `datetime.timestamp()` for an aware value: wall-clock reading minus the
UTC offset.  (The embedded code only evaluates it on aware values.) -/
def PyDatetime.timestamp (d : PyDatetime) : Int :=
  d.wallEpoch - (d.utcOffset.getD 0)

/-- An ISO-8601 datetime string, identified with the instant it parses to. -/
abbrev IsoString := PyDatetime

/-- `datetime.fromisoformat` under the identification above. -/
def fromisoformat (s : IsoString) : PyDatetime := s

/-- `datetime.isoformat` under the identification above. -/
def isoformat (d : PyDatetime) : IsoString := d

theorem one_le_length_twoDigits (n : Nat) : 1 ≤ (twoDigits n).length := by
  unfold twoDigits
  split
  · simp
  · have := natToDigits_ne_nil n
    have := List.length_pos.mpr this
    omega

/-- The timezone is called `"UTC"` exactly when the offset is zero. -/
theorem utcOffsetName_eq_utc_iff (o : Int) : utcOffsetName o = "UTC" ↔ o = 0 := by
  constructor
  · intro h
    by_contra ho
    rw [utcOffsetName, if_neg ho] at h
    have hlen := congrArg String.length h
    have h1 := one_le_length_twoDigits (o.natAbs / 3600)
    have h2 := one_le_length_twoDigits (o.natAbs % 3600 / 60)
    have hL : (String.mk ('U' :: 'T' :: 'C' :: (if o < 0 then '-' else '+') ::
        (twoDigits (o.natAbs / 3600) ++ ':' :: twoDigits (o.natAbs % 3600 / 60)))).length =
        4 + ((twoDigits (o.natAbs / 3600)).length +
          (1 + (twoDigits (o.natAbs % 3600 / 60)).length)) := by
      simp [String.length]
      omega
    have hR : ("UTC" : String).length = 3 := rfl
    rw [hL, hR] at hlen
    omega
  · intro h
    simp [utcOffsetName, h]

/-- `tzname() == 'UTC'` characterizes a UTC-normalized aware datetime. -/
theorem tzname_utc_iff (d : PyDatetime) : d.tzname = some "UTC" ↔ d.utcOffset = some 0 := by
  cases h : d.utcOffset with
  | none => simp [PyDatetime.tzname, h]
  | some o => simp [PyDatetime.tzname, h, utcOffsetName_eq_utc_iff]

/-! ## The expiration calculator -/

/-- `expiration_datetime(idle_timeout, absolute_timeout, created, accessed)`:
parse both instants, reject any whose timezone name is not `'UTC'`
(`ValueError`), and return
`min(absolute_timeout + created_epoch, idle_timeout + accessed_epoch)`. -/
def expiration_datetime (idle_timeout absolute_timeout : Int)
    (created accessed : IsoString) : Except PyErr Int :=
  let created_dt := fromisoformat created
  if created_dt.tzname ≠ some "UTC" then
    .error (.valueError "'created' must be UTC ")
  else
    let accessed_dt := fromisoformat accessed
    if accessed_dt.tzname ≠ some "UTC" then
      .error (.valueError "'accessed' must be UTC ")
    else
      .ok (min (absolute_timeout + created_dt.timestamp)
        (idle_timeout + accessed_dt.timestamp))

/-! ## Identifier generation and validation -/

/-- Modelled from the spec: `hashlib.sha512(sid.encode()).hexdigest()` (the
`hashlib` source is not part of this repository).  Embedded as an abstract
injective digest tag; no claim inspects the digest's value. -/
def loggable_session_id (sid : String) : String :=
  "sha512:" ++ sid

/-- Modelled from the spec: the keyed signature (HMAC-style, base64 of an
HMAC in `itsdangerous`) over `value` under `key`.  Embedded as an abstract
deterministic keyed tag whose output never contains the `'.'` separator
(base64 output never does). -/
def macSig (key value : String) : String :=
  String.mk (((key.data ++ '|' :: value.data).map
    (fun c => if c = '.' then '~' else c)))

theorem macSig_no_dot (key value : String) : ∀ c ∈ (macSig key value).data, c ≠ '.' := by
  intro c hc
  simp only [macSig, List.mem_map] at hc
  obtain ⟨c', _, hc'⟩ := hc
  by_cases h : c' = '.'
  · simp only [h, if_pos] at hc'
    rw [← hc']
    decide
  · simp only [h, if_neg, ite_false] at hc'
    rw [← hc']
    exact h

/-- Split a character list at its last `'.'`. -/
def splitLastDot : List Char → Option (List Char × List Char)
  | [] => none
  | c :: tl =>
    match splitLastDot tl with
    | some (v, s) => some (c :: v, s)
    | none => if c = '.' then some ([], tl) else none

theorem splitLastDot_of_no_dot (l : List Char) (h : ∀ c ∈ l, c ≠ '.') :
    splitLastDot l = none := by
  induction l with
  | nil => rfl
  | cons c tl ih =>
    rw [splitLastDot, ih (fun d hd => h d (by simp [hd]))]
    simp [h c (by simp)]

theorem splitLastDot_append (v s : List Char) (h : ∀ c ∈ s, c ≠ '.') :
    splitLastDot (v ++ '.' :: s) = some (v, s) := by
  induction v with
  | nil =>
    rw [List.nil_append, splitLastDot, splitLastDot_of_no_dot s h]
    simp
  | cons c tl ih => rw [List.cons_append, splitLastDot, ih]

/-- Modelled from the spec and the documented behaviour of the external
`itsdangerous` dependency (not part of this repository): `Signer(keys).sign`
appends `'.'` and the signature.  With a list of secret keys, the last key
in the list is the signing key. -/
def signerSign (keys : List String) (value : String) : String :=
  value ++ "." ++ macSig (keys.getLastD "") value

/-- Modelled from the spec and the documented behaviour of the external
`itsdangerous` dependency (not part of this repository):
`Signer(keys).unsign` splits at the rightmost `'.'` (raising `BadSignature`
when there is none) and accepts a signature valid under any configured
key. -/
def signerUnsign (keys : List String) (signedValue : String) : Except PyErr String :=
  match splitLastDot signedValue.data with
  | none => .error .badSignature
  | some (v, s) =>
    if keys.any (fun k => (macSig k (String.mk v)).data == s) then .ok (String.mk v)
    else .error .badSignature

/-- `create_session_id(byte_length, keys)`.  The random token drawn by
`secrets.token_urlsafe(byte_length)` (external, modelled as an oracle) is
passed explicitly as `token`; `byte_length` only determines its length. -/
def create_session_id (token : String) (keys : List String) : String :=
  if keys.length > 0 then signerSign keys token else token

/-- `validate_session_id(session_id, keys)`: an empty id raises
`SessionNotFoundError`; with signing keys configured the signature is
checked (`BadSignature` on failure); otherwise nothing happens. -/
def validate_session_id (session_id : String) (keys : List String) :
    Except PyErr Unit :=
  if session_id = "" then .error (.sessionNotFound (loggable_session_id ""))
  else if keys.length > 0 then
    match signerUnsign keys session_id with
    | .error e => .error e
    | .ok _ => .ok ()
  else .ok ()

/-! ## The DynamoDB store and the clock

A record is an attribute map; `update_item` with a `SET` expression is an
upsert assigning exactly the listed attributes.  String attributes written
by the library hold either serialized payloads (`AttrVal.s`) or ISO
datetime strings (`AttrVal.dt`, kept in parsed form per the identification
of ISO strings with instants); numeric attributes are `AttrVal.n`. -/

inductive AttrVal : Type where
  | s (v : String) : AttrVal
  | dt (v : IsoString) : AttrVal
  | n (v : Int) : AttrVal
deriving DecidableEq

abbrev FieldMap := List (String × AttrVal)

abbrev Table := List (String × FieldMap)

/-- Read one attribute of a record. -/
def fieldGet (m : FieldMap) (k : String) : Option AttrVal :=
  assocGet m k

/-- Apply a list of `SET` attribute assignments in order. -/
def applyUpdates (m : FieldMap) (fields : FieldMap) : FieldMap :=
  assocUpdate m fields

/-- Fetch the record stored under a key. -/
def tableGet (t : Table) (id : String) : Option FieldMap :=
  assocGet t id

/-- Store a record under a key (replacing any previous record). -/
def tableSet (t : Table) (id : String) (m : FieldMap) : Table :=
  assocSet t id m

/-- `update_item` with `UpdateExpression='SET ...'`: upsert assigning
exactly the listed attributes and leaving all others unchanged. -/
def update_item (t : Table) (id : String) (fields : FieldMap) : Table :=
  tableSet t id (applyUpdates ((tableGet t id).getD []) fields)

/-- The clock behind `datetime.now(tz=timezone.utc)`: `time i` is the epoch
reading returned by the `i`-th call, `k` counts the calls made so far. -/
structure Clock where
  time : Nat → Int
  k : Nat

/-- The mutable world an operation threads: the DynamoDB table plus the
clock. -/
structure World where
  table : Table
  clock : Clock

/-- `current_datetime()` (no argument): `datetime.now(tz=timezone.utc)` —
consumes one clock reading and returns it as a UTC-aware instant. -/
def current_datetime (w : World) : PyDatetime × World :=
  (⟨w.clock.time w.clock.k, some 0⟩, { w with clock := ⟨w.clock.time, w.clock.k + 1⟩ })

/-- `current_timestamp()`: `int(current_datetime().timestamp())`. -/
def current_timestamp (w : World) : Int × World :=
  let (d, w') := current_datetime w
  (d.timestamp, w')

/-! ## The session manager -/

def DEFAULT_IDLE_TIMEOUT : Int := 7200

def DEFAULT_ABSOLUTE_TIMEOUT : Int := 43200

/-- The `DynamoData` named tuple handed to `_dynamo_set`. -/
structure DynamoData where
  data : String
  idle_timeout : Int
  absolute_timeout : Int
  created : IsoString
deriving DecidableEq

/-- The configuration state of a `SessionManager` (the fields that affect
the modelled operations), at payload type `SessionDictInstance`. -/
structure SessionManager where
  idle_timeout : Int
  absolute_timeout : Int
  sid_keys : List String
  bad_session_id_raises : Bool

/-- An in-memory `SessionDictInstance`: session metadata plus the `dict`
entries. -/
structure SessionDictInstance where
  session_id : String
  idle_timeout_seconds : Int
  absolute_timeout_seconds : Int
  created : PyDatetime
  entries : List (String × JsonVal)
deriving DecidableEq

/-- An in-memory `NullSessionInstance` (no payload). -/
structure NullSessionInstance where
  session_id : String
  idle_timeout_seconds : Int
  absolute_timeout_seconds : Int
  created : PyDatetime
deriving DecidableEq

/-- The instance returned by `SessionManager.load`. -/
inductive LoadResult : Type where
  | nullInstance (inst : NullSessionInstance) : LoadResult
  | dictInstance (inst : SessionDictInstance) : LoadResult
deriving DecidableEq

/-- `NullSessionInstance(session_id=sid)`: `SessionInstanceBase.__init__`
with the default timeouts (7200/43200, the library constants) and
`created = current_datetime()` (the `created=None` default). -/
def newNullSessionInstance (session_id : String) (w : World) :
    NullSessionInstance × World :=
  let (now, w') := current_datetime w
  (⟨session_id, DEFAULT_IDLE_TIMEOUT, DEFAULT_ABSOLUTE_TIMEOUT, now⟩, w')

/-- The attribute assignments `_dynamo_set` builds (its `fields` dict, in
insertion order): `accessed`, `expires`, `created` always; `idle_timeout`,
`absolute_timeout`, `data` only when `modified`.  Fails with the
`ValueError` of `expiration_datetime` when the stored `created` (or the
current instant) is not UTC. -/
def dynamoSetFields (data : DynamoData) (modified : Bool) (current_dt : IsoString) :
    Except PyErr FieldMap := do
  let expires ← expiration_datetime data.idle_timeout data.absolute_timeout
    data.created current_dt
  let base : FieldMap := [("accessed", .dt current_dt), ("expires", .n expires),
    ("created", .dt data.created)]
  pure (if modified then
    base ++ [("idle_timeout", .n data.idle_timeout),
      ("absolute_timeout", .n data.absolute_timeout), ("data", .s data.data)]
  else base)

/-- `_dynamo_set(data, session_id, modified)`: take `current_datetime()`,
build the `SET` assignments, and apply them with `update_item`.  A
`ValueError` from the expiration computation propagates before any write. -/
def dynamo_set (data : DynamoData) (session_id : String) (modified : Bool)
    (w : World) : Except PyErr Unit × World :=
  let (now, w₁) := current_datetime w
  match dynamoSetFields data modified (isoformat now) with
  | .error e => (.error e, w₁)
  | .ok fields => (.ok (), { w₁ with table := update_item w₁.table session_id fields })

/-- `_dynamo_get(session_id)` (also `_perform_get`): query the record by
key with the server-side filter `expires > :now` (consistent read), then
read `idle_timeout`/`absolute_timeout`/`created`/`data` off the item.  A
missing attribute on a matched item is a `KeyError`; the `.get` default
for `created` eagerly consumes a `current_datetime()` call, exactly as the
Python argument evaluation does. -/
def dynamo_get (cfg : SessionManager) (session_id : String) (w : World) :
    Except PyErr (Option DynamoData) × World :=
  let (nowTs, w₁) := current_timestamp w
  let item : Option FieldMap :=
    match tableGet w₁.table session_id with
    | some m =>
      match fieldGet m "expires" with
      | some (.n e) => if e > nowTs then some m else none
      | _ => none
    | none => none
  match item with
  | none => (.ok none, w₁)
  | some m =>
    match fieldGet m "idle_timeout" with
    | none => (.error .keyError, w₁)
    | some idleAttr =>
      let idle_timeout := match idleAttr with | .n x => x | _ => cfg.idle_timeout
      match fieldGet m "absolute_timeout" with
      | none => (.error .keyError, w₁)
      | some absAttr =>
        let absolute_timeout := match absAttr with | .n x => x | _ => cfg.absolute_timeout
        match fieldGet m "created" with
        | none => (.error .keyError, w₁)
        | some createdAttr =>
          let (nowDt, w₂) := current_datetime w₁
          let created := match createdAttr with | .dt d => d | _ => isoformat nowDt
          match fieldGet m "data" with
          | none => (.error .keyError, w₂)
          | some dataAttr =>
            let dataStr := match dataAttr with | .s v => v | _ => "{}"
            (.ok (some ⟨dataStr, idle_timeout, absolute_timeout, created⟩), w₂)

/-- `SessionManager.load(session_id)`: validate the id (`BadSignature` is
absorbed or re-raised as `InvalidSessionIdError`; the `SessionNotFoundError`
of an empty id is not caught), fetch the live record, refresh it with a
non-modified write, then build the instance and deserialize the payload
into it. -/
def SessionManager.load (cfg : SessionManager) (session_id : String) (w : World) :
    Except PyErr LoadResult × World :=
  match validate_session_id session_id cfg.sid_keys with
  | .error .badSignature =>
    if cfg.bad_session_id_raises then
      (.error (.invalidSessionId (loggable_session_id session_id)), w)
    else
      let (inst, w') := newNullSessionInstance session_id w
      (.ok (.nullInstance inst), w')
  | .error e => (.error e, w)
  | .ok _ =>
    match dynamo_get cfg session_id w with
    | (.error e, w₁) => (.error e, w₁)
    | (.ok none, w₁) =>
      if cfg.bad_session_id_raises then
        (.error (.sessionNotFound (loggable_session_id session_id)), w₁)
      else
        let (inst, w₂) := newNullSessionInstance session_id w₁
        (.ok (.nullInstance inst), w₂)
    | (.ok (some data), w₁) =>
      match dynamo_set data session_id false w₁ with
      | (.error e, w₂) => (.error e, w₂)
      | (.ok _, w₂) =>
        let inst : SessionDictInstance :=
          ⟨session_id, data.idle_timeout, data.absolute_timeout,
            fromisoformat data.created, []⟩
        match dictDeserialize inst.entries data.data with
        | .error e => (.error e, w₂)
        | .ok entries => (.ok (.dictInstance { inst with entries := entries }), w₂)

/-- `SessionManager.save(data)`: serialize the instance and write a full
(`modified=True`) record whose `created` is the instance's own `created`
(`data.created.isoformat()`). -/
def SessionManager.save (cfg : SessionManager) (inst : SessionDictInstance)
    (w : World) : Except PyErr Unit × World :=
  let dd : DynamoData :=
    ⟨dictSerialize inst.entries, inst.idle_timeout_seconds,
      inst.absolute_timeout_seconds, isoformat inst.created⟩
  dynamo_set dd inst.session_id true w

/-- `SessionManager.create(...)`: build an instance with the effective
timeouts and a fresh id; no store write.  `token` is the random URL-safe
token drawn inside `create_session_id`. -/
def SessionManager.create (cfg : SessionManager) (token : String)
    (idle_timeout_seconds absolute_timeout_seconds : Option Int) (w : World) :
    SessionDictInstance × World :=
  let idle := idle_timeout_seconds.getD cfg.idle_timeout
  let absolute := absolute_timeout_seconds.getD cfg.absolute_timeout
  let sid := create_session_id token cfg.sid_keys
  let (now, w') := current_datetime w
  (⟨sid, idle, absolute, now, []⟩, w')

/-- `SessionManager.create_and_save(...)`: build the instance (whose
`created` is the `current_datetime()` of its construction), then persist a
full record whose `created` is a *separate* `current_datetime()` call made
while building the `DynamoData` tuple. -/
def SessionManager.create_and_save (cfg : SessionManager) (token : String)
    (idle_timeout_seconds absolute_timeout_seconds : Option Int) (w : World) :
    Except PyErr SessionDictInstance × World :=
  let idle := idle_timeout_seconds.getD cfg.idle_timeout
  let absolute := absolute_timeout_seconds.getD cfg.absolute_timeout
  let sid := create_session_id token cfg.sid_keys
  let (instCreated, w₁) := current_datetime w
  let inst : SessionDictInstance := ⟨sid, idle, absolute, instCreated, []⟩
  let (storeCreated, w₂) := current_datetime w₁
  let dd : DynamoData :=
    ⟨dictSerialize inst.entries, inst.idle_timeout_seconds,
      inst.absolute_timeout_seconds, isoformat storeCreated⟩
  match dynamo_set dd sid true w₂ with
  | (.error e, w₃) => (.error e, w₃)
  | (.ok _, w₃) => (.ok inst, w₃)

/-! ## Helper lemmas about the embedded operations -/

/-- There is a record for `sid` whose `expires` attribute exceeds `now`
(the condition under which the filtered query of `_dynamo_get` returns
the item). -/
def hasLiveRecord (t : Table) (sid : String) (now : Int) : Bool :=
  match tableGet t sid with
  | some m =>
    match fieldGet m "expires" with
    | some (.n e) => e > now
    | _ => false
  | none => false

theorem tzname_of_offset_zero (d : PyDatetime) (h : d.utcOffset = some 0) :
    d.tzname = some "UTC" := by
  simp [PyDatetime.tzname, h, utcOffsetName]

theorem tzname_ne_of_offset_ne (d : PyDatetime) (h : d.utcOffset ≠ some 0) :
    d.tzname ≠ some "UTC" :=
  fun hh => h ((tzname_utc_iff d).mp hh)

theorem expiration_datetime_ok (idle absolute : Int) (c a : IsoString)
    (h1 : c.utcOffset = some 0) (h2 : a.utcOffset = some 0) :
    expiration_datetime idle absolute c a =
      .ok (min (absolute + c.timestamp) (idle + a.timestamp)) := by
  simp only [expiration_datetime, fromisoformat]
  rw [if_neg (not_not_intro (tzname_of_offset_zero c h1))]
  rw [if_neg (not_not_intro (tzname_of_offset_zero a h2))]

theorem expiration_datetime_created_err (idle absolute : Int) (c a : IsoString)
    (h1 : c.utcOffset ≠ some 0) :
    expiration_datetime idle absolute c a =
      .error (.valueError "'created' must be UTC ") := by
  simp only [expiration_datetime, fromisoformat]
  rw [if_pos (tzname_ne_of_offset_ne c h1)]

theorem expiration_datetime_accessed_err (idle absolute : Int) (c a : IsoString)
    (h1 : c.utcOffset = some 0) (h2 : a.utcOffset ≠ some 0) :
    expiration_datetime idle absolute c a =
      .error (.valueError "'accessed' must be UTC ") := by
  simp only [expiration_datetime, fromisoformat]
  rw [if_neg (not_not_intro (tzname_of_offset_zero c h1))]
  rw [if_pos (tzname_ne_of_offset_ne a h2)]

theorem dynamoSetFields_refresh (data : DynamoData) (now : IsoString)
    (h1 : data.created.utcOffset = some 0) (h2 : now.utcOffset = some 0) :
    dynamoSetFields data false now = .ok
      [("accessed", .dt now),
       ("expires", .n (min (data.absolute_timeout + data.created.timestamp)
          (data.idle_timeout + now.timestamp))),
       ("created", .dt data.created)] := by
  rw [dynamoSetFields, expiration_datetime_ok _ _ _ _ h1 h2]
  rfl

theorem dynamoSetFields_full (data : DynamoData) (now : IsoString)
    (h1 : data.created.utcOffset = some 0) (h2 : now.utcOffset = some 0) :
    dynamoSetFields data true now = .ok
      [("accessed", .dt now),
       ("expires", .n (min (data.absolute_timeout + data.created.timestamp)
          (data.idle_timeout + now.timestamp))),
       ("created", .dt data.created),
       ("idle_timeout", .n data.idle_timeout),
       ("absolute_timeout", .n data.absolute_timeout),
       ("data", .s data.data)] := by
  rw [dynamoSetFields, expiration_datetime_ok _ _ _ _ h1 h2]
  rfl

theorem dynamoSetFields_refresh_inv {data : DynamoData} {now : IsoString}
    {F : FieldMap} (h : dynamoSetFields data false now = .ok F) :
    ∃ ex, F = [("accessed", .dt now), ("expires", .n ex),
      ("created", .dt data.created)] := by
  rw [dynamoSetFields] at h
  cases hE : expiration_datetime data.idle_timeout data.absolute_timeout
      data.created now with
  | error e => rw [hE] at h; exact absurd h (by simp [Bind.bind, Except.bind])
  | ok ex =>
    rw [hE] at h
    simp only [Bind.bind, Except.bind, if_neg, Bool.false_eq_true, if_false,
      pure, Except.pure, Except.ok.injEq] at h
    exact ⟨ex, h.symm⟩

theorem dynamo_set_ok_inv {data : DynamoData} {sid : String} {modified : Bool}
    {w w' : World} (h : dynamo_set data sid modified w = (.ok (), w')) :
    ∃ F, dynamoSetFields data modified ⟨w.clock.time w.clock.k, some 0⟩ = .ok F ∧
      w' = ⟨update_item w.table sid F, ⟨w.clock.time, w.clock.k + 1⟩⟩ := by
  rw [dynamo_set, current_datetime] at h
  dsimp only [isoformat] at h
  cases hF : dynamoSetFields data modified ⟨w.clock.time w.clock.k, some 0⟩ with
  | error e => rw [hF] at h; exact absurd h (by simp)
  | ok F =>
    rw [hF] at h
    simp only [Prod.mk.injEq, true_and] at h
    exact ⟨F, rfl, h.symm⟩

theorem dynamo_set_ok (data : DynamoData) (sid : String) (modified : Bool)
    (w : World) (F : FieldMap)
    (hF : dynamoSetFields data modified ⟨w.clock.time w.clock.k, some 0⟩ = .ok F) :
    dynamo_set data sid modified w =
      (.ok (), ⟨update_item w.table sid F, ⟨w.clock.time, w.clock.k + 1⟩⟩) := by
  rw [dynamo_set, current_datetime]
  dsimp only [isoformat]
  rw [hF]

theorem dynamo_get_of_not_live (cfg : SessionManager) (sid : String) (w : World)
    (h : hasLiveRecord w.table sid (w.clock.time w.clock.k) = false) :
    dynamo_get cfg sid w = (.ok none, ⟨w.table, ⟨w.clock.time, w.clock.k + 1⟩⟩) := by
  rw [dynamo_get, current_timestamp, current_datetime]
  rw [hasLiveRecord] at h
  dsimp only [PyDatetime.timestamp, Option.getD_some]
  rw [sub_zero]
  cases htg : tableGet w.table sid with
  | none => rfl
  | some m =>
    rw [htg] at h
    dsimp only at h ⊢
    cases hfg : fieldGet m "expires" with
    | none => rfl
    | some a =>
      rw [hfg] at h
      cases a with
      | s v => rfl
      | dt v => rfl
      | n e =>
        dsimp only at h ⊢
        simp only [gt_iff_lt, decide_eq_false_iff_not, not_lt] at h
        rw [if_neg (not_lt.mpr h)]


theorem dynamoSetFields_ok_created_utc {data : DynamoData} {modified : Bool}
    {now : IsoString} {F : FieldMap} (h : dynamoSetFields data modified now = .ok F) :
    data.created.utcOffset = some 0 := by
  by_contra hc
  rw [dynamoSetFields, expiration_datetime_created_err _ _ _ _ hc] at h
  exact absurd h (by simp [Bind.bind, Except.bind])

theorem getLastD_mem (l : List String) (d : String) (h : l ≠ []) :
    l.getLastD d ∈ l := by
  induction l generalizing d with
  | nil => exact absurd rfl h
  | cons a tl ih =>
    cases tl with
    | nil => simp [List.getLastD]
    | cons b tl2 =>
      have := ih (d := a) (by simp)
      simp only [List.getLastD] at this ⊢
      exact List.mem_cons_of_mem _ this

/-! ## Concrete fixtures used by the witnesses and counterexamples -/

/-- A manager with the default configuration. -/
def cfgDefault : SessionManager := ⟨7200, 43200, [], false⟩

/-- A manager with `bad_session_id_raises=True`. -/
def cfgStrict : SessionManager := ⟨7200, 43200, [], true⟩

/-- A manager configured with non-default timeouts. -/
def cfgCustom : SessionManager := ⟨10, 20, [], false⟩

/-- A world with an empty table and the identity clock. -/
def emptyWorld : World := ⟨[], ⟨fun k => (k : Int), 0⟩⟩

/-- A table holding one live record whose payload text is not decodable
JSON. -/
def badPayloadTable : Table :=
  [("sid", [("expires", .n 100), ("idle_timeout", .n 10),
    ("absolute_timeout", .n 20), ("created", .dt ⟨0, some 0⟩),
    ("data", .s "notjson"), ("accessed", .dt ⟨0, some 0⟩)])]

/-- A world over `badPayloadTable`, with the clock reading 50, 51, … . -/
def badPayloadWorld : World := ⟨badPayloadTable, ⟨fun k => (k + 50 : Int), 0⟩⟩

/-! ## The claims -/

/-- C1: for all timeouts and UTC-normalized instants with
`created ≤ accessed`, the expiration calculator returns
`min(created_epoch + absolute_timeout, accessed_epoch + idle_timeout)`. -/
theorem expiration_is_min_of_absolute_and_idle
    (idle absolute createdEpoch accessedEpoch : Int)
    (h : createdEpoch ≤ accessedEpoch) :
    expiration_datetime idle absolute ⟨createdEpoch, some 0⟩ ⟨accessedEpoch, some 0⟩ =
      .ok (min (createdEpoch + absolute) (accessedEpoch + idle)) := by
  rw [expiration_datetime_ok _ _ _ _ rfl rfl]
  congr 1
  simp only [PyDatetime.timestamp, Option.getD_some, sub_zero]
  omega

/-- C1 witness: the concrete instants of the claim.
`2021-03-01T05:00Z = 1614574800`, `06:00Z = 1614578400`,
`08:00Z = 1614585600`, `16:00Z = 1614614400`, `17:00Z = 1614618000`. -/
theorem expiration_is_min_of_absolute_and_idle_witness :
    expiration_datetime 7200 43200 ⟨1614574800, some 0⟩ ⟨1614578400, some 0⟩ =
      .ok 1614585600 ∧
    expiration_datetime 7200 43200 ⟨1614574800, some 0⟩ ⟨1614614400, some 0⟩ =
      .ok 1614618000 :=
  ⟨(expiration_is_min_of_absolute_and_idle 7200 43200 1614574800 1614578400
      (by norm_num)).trans (by norm_num),
   (expiration_is_min_of_absolute_and_idle 7200 43200 1614574800 1614614400
      (by norm_num)).trans (by norm_num)⟩

/-- C7: the expiration calculator fails with the not-UTC `ValueError`
exactly when `created` or `accessed` is not UTC-normalized (naive or a
non-zero offset), and returns a value (never coercing) when both are
UTC. -/
theorem expiration_requires_utc (idle absolute : Int) (created accessed : IsoString) :
    (created.utcOffset = some 0 → accessed.utcOffset = some 0 →
      expiration_datetime idle absolute created accessed =
        .ok (min (absolute + created.timestamp) (idle + accessed.timestamp))) ∧
    (created.utcOffset ≠ some 0 →
      expiration_datetime idle absolute created accessed =
        .error (.valueError "'created' must be UTC ")) ∧
    (created.utcOffset = some 0 → accessed.utcOffset ≠ some 0 →
      expiration_datetime idle absolute created accessed =
        .error (.valueError "'accessed' must be UTC ")) :=
  ⟨fun h1 h2 => expiration_datetime_ok _ _ _ _ h1 h2,
   fun h1 => expiration_datetime_created_err _ _ _ _ h1,
   fun h1 h2 => expiration_datetime_accessed_err _ _ _ _ h1 h2⟩

/-- C7 witness: a UTC pair succeeds; a naive `created` and a `+01:00`
`accessed` fail with the respective errors. -/
theorem expiration_requires_utc_witness :
    expiration_datetime 7200 43200 ⟨10, some 0⟩ ⟨20, some 0⟩ =
      .ok (min (43200 + 10) (7200 + 20)) ∧
    expiration_datetime 7200 43200 ⟨10, none⟩ ⟨20, some 0⟩ =
      .error (.valueError "'created' must be UTC ") ∧
    expiration_datetime 7200 43200 ⟨10, some 0⟩ ⟨20, some 3600⟩ =
      .error (.valueError "'accessed' must be UTC ") :=
  ⟨(expiration_requires_utc 7200 43200 ⟨10, some 0⟩ ⟨20, some 0⟩).1 rfl rfl,
   (expiration_requires_utc 7200 43200 ⟨10, none⟩ ⟨20, some 0⟩).2.1 (by simp),
   (expiration_requires_utc 7200 43200 ⟨10, some 0⟩ ⟨20, some 3600⟩).2.2 rfl (by simp)⟩

/-- C3 counterexample: deserializing the encoding of `{"b": 2}` into an
instance holding `{"a": 1}` *merges*: the result still contains the
pre-existing key `"a"`, so the entries do not equal the decoded map. -/
theorem dict_deserialize_replaces_counterexample :
    dictDeserialize [("a", JsonVal.num 1)] (dictSerialize [("b", JsonVal.num 2)]) =
      .ok [("a", JsonVal.num 1), ("b", JsonVal.num 2)] ∧
    [("a", JsonVal.num 1), ("b", JsonVal.num 2)] ≠ [("b", JsonVal.num 2)] := by
  constructor
  · decide
  · decide

/-- C3 (amended): for the dictionary payload variant, `deserialize` merges
the decoded map into the instance's entries (`dict.update` semantics):
every pre-existing entry whose key is absent from the decoded map is
preserved, and every entry of the decoded map ends up in the result. -/
theorem dict_deserialize_merges (entries : List (String × JsonVal)) (data : String)
    (m : JsonObj) (hm : loads data = some (.obj m)) :
    dictDeserialize entries data = .ok (dictUpdate entries m.toList) ∧
    (∀ k v, (k, v) ∈ entries → k ∉ m.toList.map Prod.fst →
      (k, v) ∈ dictUpdate entries m.toList) ∧
    (∀ k v, (m.toList.map Prod.fst).Nodup → (k, v) ∈ m.toList →
      assocGet (dictUpdate entries m.toList) k = some v) := by
  refine ⟨by rw [dictDeserialize, hm], ?_, ?_⟩
  · intro k v hmem hnk
    exact assocUpdate_mem_of_not_key _ _ _ _ hmem hnk
  · intro k v hnd hmem
    exact assocGet_assocUpdate_mem _ _ _ _ hnd hmem

/-- C3 witness: the merge behaviour at the counterexample's input. -/
theorem dict_deserialize_merges_witness :
    dictDeserialize [("a", JsonVal.num 1)] (dictSerialize [("b", JsonVal.num 2)]) =
      .ok (dictUpdate [("a", JsonVal.num 1)]
        (JsonObj.cons "b" (JsonVal.num 2) .nil).toList) ∧
    ("a", JsonVal.num 1) ∈ dictUpdate [("a", JsonVal.num 1)]
      (JsonObj.cons "b" (JsonVal.num 2) .nil).toList :=
  ⟨(dict_deserialize_merges [("a", JsonVal.num 1)] _ _ (by decide)).1,
   (dict_deserialize_merges [("a", JsonVal.num 1)]
      (dictSerialize [("b", JsonVal.num 2)]) _ (by decide)).2.1 "a" (JsonVal.num 1)
      (by decide) (by decide)⟩

/-- C8: serializing a dictionary payload instance and deserializing the
string into a fresh (empty) instance reproduces the entries exactly. -/
theorem dict_serialize_deserialize_roundtrip (x : List (String × JsonVal))
    (h : (x.map Prod.fst).Nodup) :
    dictDeserialize [] (dictSerialize x) = .ok x := by
  rw [dictSerialize]
  simp only [dictDeserialize, loads_dumps]
  rw [JsonObj.toList_ofList]
  rw [show dictUpdate [] x = assocUpdate [] x from rfl, assocUpdate_nil_of_nodup x h]

/-- C8 witness: a concrete map with nested values round-trips. -/
theorem dict_serialize_deserialize_roundtrip_witness :
    dictDeserialize [] (dictSerialize
      [("a", JsonVal.num 1), ("b", JsonVal.str "z"),
       ("c", JsonVal.arr (.cons (JsonVal.bool true) (.cons JsonVal.null .nil)))]) =
      .ok [("a", JsonVal.num 1), ("b", JsonVal.str "z"),
       ("c", JsonVal.arr (.cons (JsonVal.bool true) (.cons JsonVal.null .nil)))] :=
  dict_serialize_deserialize_roundtrip _ (by decide)

/-- C4 counterexample: with keys `["k1", "k2"]` the appended signature is
the one produced with the *last* configured key, not the first. -/
theorem signing_uses_first_key_counterexample :
    create_session_id "t" ["k1", "k2"] = "t" ++ "." ++ macSig "k2" "t" ∧
    create_session_id "t" ["k1", "k2"] ≠ "t" ++ "." ++ macSig "k1" "t" := by
  constructor
  · decide
  · decide

theorem signerUnsign_accepts_any_key (keys : List String) (k : String)
    (token : String) (hk : k ∈ keys) :
    signerUnsign keys (token ++ "." ++ macSig k token) = .ok token := by
  rw [signerUnsign]
  have hdata : (token ++ "." ++ macSig k token).data =
      token.data ++ '.' :: (macSig k token).data := by
    simp [String.data_append]
  rw [hdata, splitLastDot_append _ _ (macSig_no_dot k token)]
  have hany : (keys.any fun k2 =>
      (macSig k2 (String.mk token.data)).data == (macSig k token).data) = true :=
    List.any_eq_true.mpr ⟨k, hk, by simp⟩
  simp [hany]

/-- C4 (amended): with one or more signing keys configured, identifier
generation appends the keyed signature over the token made with the *last*
configured key; identifier validation accepts a signature produced with
any configured key (so a generated identifier always validates); with an
empty key list, generation appends nothing and validation of a non-empty
identifier raises nothing. -/
theorem session_id_signing (keys : List String) (token : String) :
    (keys ≠ [] → create_session_id token keys =
      token ++ "." ++ macSig (keys.getLastD "") token) ∧
    (∀ k ∈ keys, signerUnsign keys (token ++ "." ++ macSig k token) = .ok token) ∧
    (keys ≠ [] → validate_session_id (create_session_id token keys) keys = .ok ()) ∧
    (create_session_id token [] = token) ∧
    (∀ sid : String, sid ≠ "" → validate_session_id sid [] = .ok ()) := by
  refine ⟨?_, ?_, ?_, ?_, ?_⟩
  · intro h
    rw [create_session_id, if_pos (by simpa [List.length_pos] using h), signerSign]
  · intro k hk
    exact signerUnsign_accepts_any_key keys k token hk
  · intro h
    have hsig := create_session_id token keys
    rw [create_session_id, if_pos (by simpa [List.length_pos] using h), signerSign]
    have hne : token ++ "." ++ macSig (keys.getLastD "") token ≠ "" := by
      intro hh
      have := congrArg String.data hh
      simp [String.data_append] at this
    rw [validate_session_id, if_neg hne,
      if_pos (by simpa [List.length_pos] using h : keys.length > 0),
      signerUnsign_accepts_any_key keys _ token (getLastD_mem keys "" h)]
  · rw [create_session_id]
    simp
  · intro sid hsid
    rw [validate_session_id, if_neg hsid]
    simp

/-- C4 witness: the amended claim at keys `["k1", "k2"]`, token `"t"`. -/
theorem session_id_signing_witness :
    create_session_id "t" ["k1", "k2"] =
      "t" ++ "." ++ macSig (["k1", "k2"].getLastD "") "t" ∧
    signerUnsign ["k1", "k2"] ("t" ++ "." ++ macSig "k1" "t") = .ok "t" ∧
    validate_session_id (create_session_id "t" ["k1", "k2"]) ["k1", "k2"] = .ok () ∧
    create_session_id "t" [] = "t" ∧
    validate_session_id "t" [] = .ok () :=
  ⟨(session_id_signing ["k1", "k2"] "t").1 (by decide),
   (session_id_signing ["k1", "k2"] "t").2.1 "k1" (by decide),
   (session_id_signing ["k1", "k2"] "t").2.2.1 (by decide),
   (session_id_signing [] "t").2.2.2.1,
   (session_id_signing [] "t").2.2.2.2 "t" (by decide)⟩

/-- C6 counterexample: the `SET` assignment list of a refresh
(`modified=False`) write names `accessed`, `expires` *and* `created` —
not only `accessed` and `expires`. -/
theorem refresh_write_only_accessed_expires_counterexample :
    (dynamoSetFields ⟨dictSerialize [], 7200, 43200, ⟨0, some 0⟩⟩ false
      ⟨5, some 0⟩).map (fun F => F.map Prod.fst) =
      .ok ["accessed", "expires", "created"] ∧
    (dynamoSetFields ⟨dictSerialize [], 7200, 43200, ⟨0, some 0⟩⟩ false
      ⟨5, some 0⟩).map (fun F => F.map Prod.fst) ≠
      .ok ["accessed", "expires"] := by
  constructor
  · decide
  · decide

/-- C6 (amended): a refresh-mode write (the `modified=False` write `load`
performs after a successful read) assigns exactly the attributes
`accessed`, `expires` and `created` — `created` being rewritten with the
value just read, so its stored value is unchanged — and leaves `data`,
`idle_timeout` and `absolute_timeout` untouched; the payload and timeout
attributes are written only by full (`modified=True`) writes. -/
theorem refresh_write_fields (data : DynamoData) (now : IsoString)
    (h1 : data.created.utcOffset = some 0) (h2 : now.utcOffset = some 0) :
    dynamoSetFields data false now = .ok
      [("accessed", .dt now),
       ("expires", .n (min (data.absolute_timeout + data.created.timestamp)
          (data.idle_timeout + now.timestamp))),
       ("created", .dt data.created)] ∧
    (∀ (m F : FieldMap), dynamoSetFields data false now = .ok F →
      fieldGet (applyUpdates m F) "data" = fieldGet m "data" ∧
      fieldGet (applyUpdates m F) "idle_timeout" = fieldGet m "idle_timeout" ∧
      fieldGet (applyUpdates m F) "absolute_timeout" = fieldGet m "absolute_timeout" ∧
      fieldGet (applyUpdates m F) "created" = some (.dt data.created) ∧
      fieldGet (applyUpdates m F) "accessed" = some (.dt now)) := by
  refine ⟨dynamoSetFields_refresh data now h1 h2, ?_⟩
  intro m F hF
  obtain ⟨ex, rfl⟩ := dynamoSetFields_refresh_inv hF
  refine ⟨?_, ?_, ?_, ?_, ?_⟩
  · exact assocGet_assocUpdate_not_key _ _ _ (by simp)
  · exact assocGet_assocUpdate_not_key _ _ _ (by simp)
  · exact assocGet_assocUpdate_not_key _ _ _ (by simp)
  · exact assocGet_assocUpdate_mem _ _ _ _ (by simp) (by simp)
  · exact assocGet_assocUpdate_mem _ _ _ _ (by simp) (by simp)

/-- C6 witness: the refresh fields at a concrete record and instant. -/
theorem refresh_write_fields_witness :
    dynamoSetFields ⟨dictSerialize [], 7200, 43200, ⟨0, some 0⟩⟩ false ⟨5, some 0⟩ =
      .ok [("accessed", .dt ⟨5, some 0⟩),
        ("expires", .n (min (43200 + (0 : Int)) (7200 + 5))),
        ("created", .dt ⟨0, some 0⟩)] ∧
    fieldGet (applyUpdates [("data", .s "old")]
      [("accessed", AttrVal.dt ⟨5, some 0⟩), ("expires", AttrVal.n 7205),
        ("created", AttrVal.dt ⟨0, some 0⟩)]) "data" = some (.s "old") := by
  constructor
  · exact (refresh_write_fields ⟨dictSerialize [], 7200, 43200, ⟨0, some 0⟩⟩
      ⟨5, some 0⟩ rfl rfl).1
  · exact ((refresh_write_fields ⟨dictSerialize [], 7200, 43200, ⟨0, some 0⟩⟩
      ⟨5, some 0⟩ rfl rfl).2 [("data", .s "old")] _ (by decide)).1

/-- C5 counterexample: `create_and_save` persists a `created` captured at
write time (clock reading 1), while the instance carries its construction
instant (clock reading 0); the subsequent `save` rewrites the stored
`created` from reading 1 to reading 0 — so the stored `created` after
`save` differs from the one persisted when the record was first written. -/
theorem save_never_changes_created_counterexample :
    (SessionManager.create_and_save cfgDefault "tok" none none emptyWorld).1 =
      .ok ⟨"tok", 7200, 43200, ⟨0, some 0⟩, []⟩ ∧
    fieldGet ((tableGet (SessionManager.create_and_save cfgDefault "tok" none none
        emptyWorld).2.table "tok").getD []) "created" = some (.dt ⟨1, some 0⟩) ∧
    (SessionManager.save cfgDefault ⟨"tok", 7200, 43200, ⟨0, some 0⟩, []⟩
      (SessionManager.create_and_save cfgDefault "tok" none none emptyWorld).2).1 =
      .ok () ∧
    fieldGet ((tableGet (SessionManager.save cfgDefault
        ⟨"tok", 7200, 43200, ⟨0, some 0⟩, []⟩
        (SessionManager.create_and_save cfgDefault "tok" none none
          emptyWorld).2).2.table "tok").getD []) "created" =
      some (.dt ⟨0, some 0⟩) ∧
    (some (AttrVal.dt ⟨0, some 0⟩) : Option AttrVal) ≠ some (.dt ⟨1, some 0⟩) := by
  refine ⟨?_, ?_, ?_, ?_, ?_⟩ <;> decide

/-- C5 (amended): `save` writes the payload, both timeouts,
`accessed = now`, and `expires` recomputed from the instance's own
`created` carried since construction; it always writes
`created := ` the instance's own `created` (leaving every other record in
the table untouched).  Hence repeated saves of one instance keep the
stored `created` fixed, and a record first persisted by `save` keeps its
`created` forever — but after `create_and_save`, which persists a
write-time `created`, the first subsequent `save` replaces the stored
`created` with the instance's construction instant. -/
theorem save_writes_instance_created (cfg : SessionManager)
    (inst : SessionDictInstance) (w : World)
    (h : inst.created.utcOffset = some 0) :
    ∃ w', SessionManager.save cfg inst w = (.ok (), w') ∧
      w'.clock.time = w.clock.time ∧ w'.clock.k = w.clock.k + 1 ∧
      (∀ sid', sid' ≠ inst.session_id →
        tableGet w'.table sid' = tableGet w.table sid') ∧
      ∃ m, tableGet w'.table inst.session_id = some m ∧
        fieldGet m "created" = some (.dt inst.created) ∧
        fieldGet m "accessed" = some (.dt ⟨w.clock.time w.clock.k, some 0⟩) ∧
        fieldGet m "data" = some (.s (dictSerialize inst.entries)) ∧
        fieldGet m "idle_timeout" = some (.n inst.idle_timeout_seconds) ∧
        fieldGet m "absolute_timeout" = some (.n inst.absolute_timeout_seconds) ∧
        fieldGet m "expires" = some (.n (min
          (inst.absolute_timeout_seconds + inst.created.timestamp)
          (inst.idle_timeout_seconds +
            (⟨w.clock.time w.clock.k, some 0⟩ : PyDatetime).timestamp))) := by
  have hF := dynamoSetFields_full
    ⟨dictSerialize inst.entries, inst.idle_timeout_seconds,
      inst.absolute_timeout_seconds, isoformat inst.created⟩
    ⟨w.clock.time w.clock.k, some 0⟩ h rfl
  have hset := dynamo_set_ok _ inst.session_id true w _ hF
  have hsave : SessionManager.save cfg inst w =
      (.ok (), ⟨update_item w.table inst.session_id
        [("accessed", .dt ⟨w.clock.time w.clock.k, some 0⟩),
         ("expires", .n (min
            (inst.absolute_timeout_seconds + inst.created.timestamp)
            (inst.idle_timeout_seconds +
              (⟨w.clock.time w.clock.k, some 0⟩ : PyDatetime).timestamp))),
         ("created", .dt inst.created),
         ("idle_timeout", .n inst.idle_timeout_seconds),
         ("absolute_timeout", .n inst.absolute_timeout_seconds),
         ("data", .s (dictSerialize inst.entries))],
        ⟨w.clock.time, w.clock.k + 1⟩⟩) := by
    rw [SessionManager.save]
    exact hset
  refine ⟨_, hsave, rfl, rfl, ?_, ?_⟩
  · intro sid' hne
    exact assocGet_assocSet_ne _ _ _ _ hne
  · refine ⟨_, assocGet_assocSet_self _ _ _, ?_, ?_, ?_, ?_, ?_, ?_⟩
    · exact assocGet_assocUpdate_mem _ _ _ _ (by simp) (by simp)
    · exact assocGet_assocUpdate_mem _ _ _ _ (by simp) (by simp)
    · exact assocGet_assocUpdate_mem _ _ _ _ (by simp) (by simp)
    · exact assocGet_assocUpdate_mem _ _ _ _ (by simp) (by simp)
    · exact assocGet_assocUpdate_mem _ _ _ _ (by simp) (by simp)
    · exact assocGet_assocUpdate_mem _ _ _ _ (by simp) (by simp)

/-- C5 witness: the save postcondition at a concrete instance. -/
theorem save_writes_instance_created_witness :
    (⟨"s", 10, 20, ⟨0, some 0⟩, [("a", JsonVal.num 1)]⟩ :
      SessionDictInstance).created.utcOffset = some 0 ∧
    ∃ w', SessionManager.save cfgDefault
        ⟨"s", 10, 20, ⟨0, some 0⟩, [("a", JsonVal.num 1)]⟩ emptyWorld = (.ok (), w') ∧
      ∃ m, tableGet w'.table "s" = some m ∧
        fieldGet m "created" = some (.dt ⟨0, some 0⟩) := by
  refine ⟨rfl, ?_⟩
  obtain ⟨w', hsave, _, _, _, m, hm, hcre, _⟩ :=
    save_writes_instance_created cfgDefault
      ⟨"s", 10, 20, ⟨0, some 0⟩, [("a", JsonVal.num 1)]⟩ emptyWorld rfl
  exact ⟨w', hsave, m, hm, hcre⟩

/-- C2 counterexample: `load` of the *empty* identifier raises
`SessionNotFoundError` even in the default configuration
(`validate_session_id` raises it for a falsy id and `load` only catches
`BadSignature`), so "load never raises for an absent identifier" fails. -/
theorem load_default_never_raises_counterexample :
    (SessionManager.load cfgDefault "" emptyWorld).1 =
      .error (.sessionNotFound (loggable_session_id "")) ∧
    cfgDefault.bad_session_id_raises = false ∧
    tableGet emptyWorld.table "" = none := by
  refine ⟨?_, rfl, rfl⟩
  decide

/-- C2 (amended): for every identifier that passes validation (non-empty,
and correctly signed when signing keys are configured) and has no live
record, `load` returns a null instance carrying the requested identifier
when `bad_session_id_raises` is false, and fails with `SessionNotFound`
when it is true.  (An empty identifier raises `SessionNotFound` regardless
of configuration, and with keys configured a badly-signed identifier
yields the null instance / `InvalidSessionId` instead.) -/
theorem load_absent_identifier (cfg : SessionManager) (sid : String) (w : World)
    (hval : validate_session_id sid cfg.sid_keys = .ok ())
    (hlive : hasLiveRecord w.table sid (w.clock.time w.clock.k) = false) :
    (cfg.bad_session_id_raises = true →
      SessionManager.load cfg sid w =
        (.error (.sessionNotFound (loggable_session_id sid)),
          ⟨w.table, ⟨w.clock.time, w.clock.k + 1⟩⟩)) ∧
    (cfg.bad_session_id_raises = false →
      SessionManager.load cfg sid w =
        (.ok (.nullInstance ⟨sid, DEFAULT_IDLE_TIMEOUT, DEFAULT_ABSOLUTE_TIMEOUT,
          ⟨w.clock.time (w.clock.k + 1), some 0⟩⟩),
          ⟨w.table, ⟨w.clock.time, w.clock.k + 2⟩⟩)) := by
  have hget := dynamo_get_of_not_live cfg sid w hlive
  constructor
  · intro hr
    rw [SessionManager.load, hval]
    dsimp only
    rw [hget]
    dsimp only
    rw [hr]
    simp
  · intro hr
    rw [SessionManager.load, hval]
    dsimp only
    rw [hget]
    dsimp only
    rw [hr]
    simp [newNullSessionInstance, current_datetime]

/-- C2 witness: a never-created identifier under the default and the
strict configuration. -/
theorem load_absent_identifier_witness :
    SessionManager.load cfgDefault "x" emptyWorld =
      (.ok (.nullInstance ⟨"x", DEFAULT_IDLE_TIMEOUT, DEFAULT_ABSOLUTE_TIMEOUT,
        ⟨1, some 0⟩⟩), ⟨[], ⟨emptyWorld.clock.time, 2⟩⟩) ∧
    SessionManager.load cfgStrict "x" emptyWorld =
      (.error (.sessionNotFound (loggable_session_id "x")),
        ⟨[], ⟨emptyWorld.clock.time, 1⟩⟩) :=
  ⟨(load_absent_identifier cfgDefault "x" emptyWorld (by decide) (by decide)).2 rfl,
   (load_absent_identifier cfgStrict "x" emptyWorld (by decide) (by decide)).1 rfl⟩

/-- C9: when the store returns a live record whose payload is not
decodable, the refresh write (`accessed`/`expires` update) has already
been applied before deserialization, and the decode error then propagates:
`load` ends in the post-refresh world, whose record carries the refreshed
`accessed` and `expires`. -/
theorem load_refreshes_before_deserialize (cfg : SessionManager) (sid : String)
    (w w₁ w₂ : World) (d : DynamoData) (e : PyErr)
    (hval : validate_session_id sid cfg.sid_keys = .ok ())
    (hget : dynamo_get cfg sid w = (.ok (some d), w₁))
    (hset : dynamo_set d sid false w₁ = (.ok (), w₂))
    (hdes : dictDeserialize [] d.data = .error e) :
    SessionManager.load cfg sid w = (.error e, w₂) ∧
    ∃ m, tableGet w₂.table sid = some m ∧
      fieldGet m "accessed" = some (.dt ⟨w₁.clock.time w₁.clock.k, some 0⟩) ∧
      fieldGet m "expires" = some (.n (min
        (d.absolute_timeout + d.created.timestamp)
        (d.idle_timeout +
          (⟨w₁.clock.time w₁.clock.k, some 0⟩ : PyDatetime).timestamp))) := by
  constructor
  · rw [SessionManager.load, hval]
    dsimp only
    rw [hget]
    dsimp only
    rw [hset]
    dsimp only
    rw [hdes]
  · obtain ⟨F, hF, hw₂⟩ := dynamo_set_ok_inv hset
    have hcu := dynamoSetFields_ok_created_utc hF
    have hFe := dynamoSetFields_refresh d ⟨w₁.clock.time w₁.clock.k, some 0⟩ hcu rfl
    rw [hF] at hFe
    injection hFe with hFeq
    subst hFeq
    subst hw₂
    refine ⟨_, assocGet_assocSet_self _ _ _, ?_, ?_⟩
    · exact assocGet_assocUpdate_mem _ _ _ _ (by simp) (by simp)
    · exact assocGet_assocUpdate_mem _ _ _ _ (by simp) (by simp)


/-- C9 witness: a live record with payload text `"notjson"`; `load` fails
with the JSON decode error, and the stored `accessed` has been bumped to
the refresh instant (clock reading 52). -/
theorem load_refreshes_before_deserialize_witness :
    validate_session_id "sid" cfgDefault.sid_keys = .ok () ∧
    (SessionManager.load cfgDefault "sid" badPayloadWorld).1 = .error .jsonError ∧
    fieldGet ((tableGet (SessionManager.load cfgDefault "sid"
      badPayloadWorld).2.table "sid").getD []) "accessed" =
        some (.dt ⟨52, some 0⟩) := by
  obtain ⟨h1, m, hm, hacc, _⟩ :=
    load_refreshes_before_deserialize cfgDefault "sid" badPayloadWorld _ _
      ⟨"notjson", 10, 20, ⟨0, some 0⟩⟩ .jsonError rfl rfl rfl rfl
  refine ⟨rfl, ?_, ?_⟩
  · rw [h1]
  · rw [h1, hm]
    exact hacc

/-- `_dynamo_get` leaves the table unchanged and consumes one clock call
(two when the matched item's attributes are read up to `created`). -/
theorem dynamo_get_res (cfg : SessionManager) (sid : String) (w : World) :
    ∃ r j, (j = 1 ∨ j = 2) ∧
      dynamo_get cfg sid w = (r, ⟨w.table, ⟨w.clock.time, w.clock.k + j⟩⟩) := by
  rw [dynamo_get, current_timestamp, current_datetime]
  dsimp only
  cases htg : tableGet w.table sid with
  | none => exact ⟨.ok none, 1, Or.inl rfl, rfl⟩
  | some m =>
    dsimp only
    cases hfe : fieldGet m "expires" with
    | none => exact ⟨.ok none, 1, Or.inl rfl, rfl⟩
    | some a =>
      cases a with
      | s v => exact ⟨.ok none, 1, Or.inl rfl, rfl⟩
      | dt v => exact ⟨.ok none, 1, Or.inl rfl, rfl⟩
      | n e =>
        dsimp only [PyDatetime.timestamp, Option.getD_some]
        rw [sub_zero]
        by_cases he : e > w.clock.time w.clock.k
        · rw [if_pos he]
          dsimp only
          cases h1 : fieldGet m "idle_timeout" with
          | none => exact ⟨.error .keyError, 1, Or.inl rfl, rfl⟩
          | some idleAttr =>
            cases h2 : fieldGet m "absolute_timeout" with
            | none => exact ⟨.error .keyError, 1, Or.inl rfl, rfl⟩
            | some absAttr =>
              cases h3 : fieldGet m "created" with
              | none => exact ⟨.error .keyError, 1, Or.inl rfl, rfl⟩
              | some createdAttr =>
                cases h4 : fieldGet m "data" with
                | none => exact ⟨.error .keyError, 2, Or.inr rfl, rfl⟩
                | some dataAttr => exact ⟨_, 2, Or.inr rfl, rfl⟩
        · rw [if_neg he]
          exact ⟨.ok none, 1, Or.inl rfl, rfl⟩



/-- C10: every null instance returned by `load` carries the requested
identifier plus freshly-defaulted metadata — idle timeout 7200 and
absolute timeout 43200 (the library constants, whatever the manager's
configured timeouts), and a `created` equal to the instant returned by the
last clock call the load made (the moment the instance was constructed),
not any stored value. -/
theorem load_null_instance_fresh (cfg : SessionManager) (sid : String) (w : World)
    (inst : NullSessionInstance) (w' : World)
    (h : SessionManager.load cfg sid w = (.ok (.nullInstance inst), w')) :
    inst.idle_timeout_seconds = 7200 ∧
    inst.absolute_timeout_seconds = 43200 ∧
    inst.session_id = sid ∧
    w'.clock.time = w.clock.time ∧ w.clock.k < w'.clock.k ∧
    inst.created = ⟨w.clock.time (w'.clock.k - 1), some 0⟩ := by
  rw [SessionManager.load] at h
  cases hval : validate_session_id sid cfg.sid_keys with
  | error pe =>
    rw [hval] at h
    cases pe with
    | badSignature =>
      dsimp only at h
      by_cases hr : cfg.bad_session_id_raises = true
      · rw [if_pos hr] at h
        exact absurd h (by simp)
      · rw [if_neg hr, newNullSessionInstance, current_datetime] at h
        dsimp only at h
        simp only [Prod.mk.injEq, Except.ok.injEq, LoadResult.nullInstance.injEq] at h
        obtain ⟨hinst, hw⟩ := h
        subst hinst
        subst hw
        refine ⟨rfl, rfl, rfl, rfl, ?_, ?_⟩
        · show w.clock.k < w.clock.k + 1
          omega
        · show (⟨w.clock.time w.clock.k, some 0⟩ : PyDatetime) =
            ⟨w.clock.time (w.clock.k + 1 - 1), some 0⟩
          simp
    | valueError msg => exact absurd h (by simp)
    | jsonError => exact absurd h (by simp)
    | typeError => exact absurd h (by simp)
    | sessionNotFound s => exact absurd h (by simp)
    | invalidSessionId s => exact absurd h (by simp)
    | keyError => exact absurd h (by simp)
  | ok u =>
    rw [hval] at h
    obtain ⟨r, j, hj, hget⟩ := dynamo_get_res cfg sid w
    rw [hget] at h
    dsimp only at h
    cases r with
    | error e => exact absurd h (by simp)
    | ok od =>
      cases od with
      | none =>
        dsimp only at h
        by_cases hr : cfg.bad_session_id_raises = true
        · rw [if_pos hr] at h
          exact absurd h (by simp)
        · rw [if_neg hr, newNullSessionInstance, current_datetime] at h
          dsimp only at h
          simp only [Prod.mk.injEq, Except.ok.injEq, LoadResult.nullInstance.injEq] at h
          obtain ⟨hinst, hw⟩ := h
          subst hinst
          subst hw
          refine ⟨rfl, rfl, rfl, rfl, ?_, ?_⟩
          · show w.clock.k < w.clock.k + j + 1
            omega
          · show (⟨w.clock.time (w.clock.k + j), some 0⟩ : PyDatetime) =
              ⟨w.clock.time (w.clock.k + j + 1 - 1), some 0⟩
            simp
      | some data =>
        replace h : (match dynamo_set data sid false
            (⟨w.table, ⟨w.clock.time, w.clock.k + j⟩⟩ : World) with
          | (.error e, w₂) => ((.error e : Except PyErr LoadResult), w₂)
          | (.ok _, w₂) =>
            match dictDeserialize [] data.data with
            | .error e => ((.error e : Except PyErr LoadResult), w₂)
            | .ok entries =>
              (.ok (.dictInstance ⟨sid, data.idle_timeout, data.absolute_timeout,
                fromisoformat data.created, entries⟩), w₂)) =
            (.ok (.nullInstance inst), w') := h
        split at h
        · exact absurd h (by simp)
        · split at h
          · exact absurd h (by simp)
          · exact absurd h (by simp)

/-- C10 witness: a manager configured with timeouts 10/20 still yields a
null instance with 7200/43200 and a fresh `created` (clock reading 1). -/
theorem load_null_instance_fresh_witness :
    (SessionManager.load cfgCustom "x" emptyWorld).1 =
      .ok (.nullInstance ⟨"x", 7200, 43200, ⟨1, some 0⟩⟩) ∧
    cfgCustom.idle_timeout = 10 ∧ cfgCustom.absolute_timeout = 20 ∧
    (⟨"x", 7200, 43200, ⟨1, some 0⟩⟩ : NullSessionInstance).created =
      ⟨emptyWorld.clock.time
        ((SessionManager.load cfgCustom "x" emptyWorld).2.clock.k - 1), some 0⟩ := by
  have h := load_null_instance_fresh cfgCustom "x" emptyWorld
    ⟨"x", 7200, 43200, ⟨1, some 0⟩⟩
    (SessionManager.load cfgCustom "x" emptyWorld).2 rfl
  exact ⟨rfl, rfl, rfl, h.2.2.2.2.2⟩

end DynamoSession
